import Mathlib

/-!
Shallow embedding of the terrain core of the tilemapedit3d editor
(src/types.rs and src/terrain.rs): tile grid data model, corner-height
resolver, mesh builder (top faces and skirts) and splatmap encoder.

Float values (`f32`) are embedded as rationals: every height is an integer
elevation times `TILE_HEIGHT = 0.4`, and every comparison made by the code
(strict `<` against another height, `abs < 1e-4`) is order-theoretic, so the
rational embedding agrees with the `f32` computation on all of them.
-/

namespace Tilemap

/-- Embeds `TileKind` from src/types.rs. -/
inductive TileKind where
  | Floor
  | Ramp
deriving DecidableEq, Repr

/-- Embeds `RampDirection` from src/types.rs. -/
inductive RampDirection where
  | North
  | East
  | South
  | West
deriving DecidableEq, Repr

/-- Embeds `RampDirection::ALL` from src/types.rs (scan order North, East, South, West). -/
def RampDirection.ALL : List RampDirection :=
  [RampDirection.North, RampDirection.East, RampDirection.South, RampDirection.West]

/-- Embeds `RampDirection::offset` from src/types.rs. -/
def RampDirection.offset : RampDirection → Int × Int
  | RampDirection.North => (0, -1)
  | RampDirection.East => (1, 0)
  | RampDirection.South => (0, 1)
  | RampDirection.West => (-1, 0)

/-- Position of a direction in the fixed scan order `RampDirection.ALL`. -/
def RampDirection.scanIndex : RampDirection → Nat
  | RampDirection.North => 0
  | RampDirection.East => 1
  | RampDirection.South => 2
  | RampDirection.West => 3

/-- Embeds `TileType` from src/types.rs. -/
inductive TileType where
  | Grass
  | Dirt
  | Cliff
  | Water
deriving DecidableEq, Repr

/-- Modelled from the spec: `TileType::as_index` is called in src/terrain.rs but its
definition is not among the provided sources. The spec (§9) describes it as "an explicit
as_index() mapping into the fixed 4-channel splat/layer space" for the closed 4-variant
enum, so it is modelled as the declaration-order index Grass 0, Dirt 1, Cliff 2, Water 3. -/
def TileType.as_index : TileType → Nat
  | TileType.Grass => 0
  | TileType.Dirt => 1
  | TileType.Cliff => 2
  | TileType.Water => 3

/-- Embeds `Tile` from src/types.rs; `elevation` is an `i8` in the source, embedded as
an unbounded integer (the code only multiplies it by a positive constant and compares). -/
structure Tile where
  kind : TileKind
  tile_type : TileType
  x : Nat
  y : Nat
  elevation : Int
  ramp_direction : Option RampDirection
deriving DecidableEq, Repr

/-- The tile `TileMap::new` fills the grid with. -/
def defaultTile : Tile :=
  { kind := TileKind.Floor, tile_type := TileType.Grass, x := 0, y := 0
    elevation := 0, ramp_direction := none }

/-- Embeds `TileMap` from src/types.rs: a row-major `width*height` tile vector. -/
structure TileMap where
  width : Nat
  height : Nat
  tiles : List Tile
deriving Repr

/-- Embeds `TileMap::new` from src/types.rs. -/
def TileMap.new (w h : Nat) : TileMap :=
  { width := w, height := h, tiles := List.replicate (w * h) defaultTile }

/-- Embeds `TileMap::idx` from src/types.rs. -/
def TileMap.idx (m : TileMap) (x y : Nat) : Nat :=
  y * m.width + x

/-- Embeds `TileMap::get` from src/types.rs. The source indexes the vector directly
(and would panic out of range); all call sites stay in range, and the total embedding
returns the default tile out of range. -/
def TileMap.get (m : TileMap) (x y : Nat) : Tile :=
  m.tiles.getD (m.idx x y) defaultTile

/-- Embeds `TILE_SIZE` from src/types.rs (1.0 world units per tile). -/
def TILE_SIZE : ℚ := 1

/-- Embeds `ELEVATION_FRACTION` from src/types.rs (0.4). -/
def ELEVATION_FRACTION : ℚ := 2 / 5

/-- Embeds `TILE_HEIGHT = TILE_SIZE * ELEVATION_FRACTION` from src/types.rs. -/
def TILE_HEIGHT : ℚ := TILE_SIZE * ELEVATION_FRACTION

/-- Embeds `ramp_neighbor_height` from src/terrain.rs: the neighbor across `dir`,
if it lies inside the grid and its base height is strictly below `base`. -/
def ramp_neighbor_height (map : TileMap) (x y : Nat) (dir : RampDirection) (base : ℚ) :
    Option ℚ :=
  let o := dir.offset
  let nx : Int := (x : Int) + o.1
  let ny : Int := (y : Int) + o.2
  if nx < 0 ∨ ny < 0 then none
  else
    let ux := nx.toNat
    let uy := ny.toNat
    if map.width ≤ ux ∨ map.height ≤ uy then none
    else
      let neighbor := map.get ux uy
      let height := (neighbor.elevation : ℚ) * TILE_HEIGHT
      if height < base then some height else none

/-- One step of the scan loop of `find_ramp_target` (src/terrain.rs lines 239-248):
keep the current candidate unless this direction has a strictly lower qualifying
neighbor (so on ties the earlier direction is kept). -/
def ramp_scan_step (map : TileMap) (x y : Nat) (base : ℚ)
    (result : Option (RampDirection × ℚ)) (dir : RampDirection) :
    Option (RampDirection × ℚ) :=
  match ramp_neighbor_height map x y dir base with
  | none => result
  | some height =>
    match result with
    | some (d, existing) =>
      if existing ≤ height then some (d, existing) else some (dir, height)
    | none => some (dir, height)

/-- Embeds `find_ramp_target` from src/terrain.rs: scan all four directions, keeping
the lowest qualifying neighbor height, the earlier direction winning ties. -/
def find_ramp_target (map : TileMap) (x y : Nat) (base : ℚ) :
    Option (RampDirection × ℚ) :=
  RampDirection.ALL.foldl (ramp_scan_step map x y base) none

/-- The target-edge resolution inside `tile_corner_heights` (src/terrain.rs lines 31-37):
try the explicit `ramp_direction` first, otherwise auto-resolve. -/
def rampTarget (map : TileMap) (x y : Nat) (base : ℚ) (t : Tile) :
    Option (RampDirection × ℚ) :=
  let viaDir := t.ramp_direction.bind
    (fun dir => (ramp_neighbor_height map x y dir base).map (fun h => (dir, h)))
  match viaDir with
  | some r => some r
  | none => find_ramp_target map x y base

/-- The four resolved corner heights of a tile, named after the `CORNER_NW`,
`CORNER_NE`, `CORNER_SW`, `CORNER_SE` slots of the `[f32; 4]` in src/terrain.rs. -/
structure Corners where
  nw : ℚ
  ne : ℚ
  sw : ℚ
  se : ℚ
deriving DecidableEq, Repr

/-- The corner-lowering match of `tile_corner_heights` (src/terrain.rs lines 39-58). -/
def applyRamp (c : Corners) : RampDirection × ℚ → Corners
  | (RampDirection.North, h) => { c with nw := h, ne := h }
  | (RampDirection.South, h) => { c with sw := h, se := h }
  | (RampDirection.West, h) => { c with nw := h, sw := h }
  | (RampDirection.East, h) => { c with ne := h, se := h }

/-- Embeds `tile_corner_heights` from src/terrain.rs. -/
def tile_corner_heights (map : TileMap) (x y : Nat) : Corners :=
  let tile := map.get x y
  let base := (tile.elevation : ℚ) * TILE_HEIGHT
  let corners : Corners := { nw := base, ne := base, sw := base, se := base }
  if tile.kind = TileKind.Ramp then
    match rampTarget map x y base tile with
    | some th => applyRamp corners th
    | none => corners
  else corners

/-- Rational 3-vector standing in for bevy `Vec3` (x, y up, z). -/
structure Vec3 where
  x : ℚ
  y : ℚ
  z : ℚ
deriving DecidableEq, Repr

/-- Componentwise subtraction of `Vec3`. -/
def Vec3.sub (a b : Vec3) : Vec3 :=
  { x := a.x - b.x, y := a.y - b.y, z := a.z - b.z }

/-- Cross product of `Vec3`. -/
def Vec3.cross (a b : Vec3) : Vec3 :=
  { x := a.y * b.z - a.z * b.y, y := a.z * b.x - a.x * b.z, z := a.x * b.y - a.y * b.x }

/-- Embeds the `MeshBuffers` accumulator of src/terrain.rs. -/
structure MeshBuffers where
  positions : List Vec3
  normals : List Vec3
  uvs : List (ℚ × ℚ)
  tile_layers : Option (List (ℚ × ℚ))
  indices : List Nat
  next_index : Nat
deriving DecidableEq, Repr

/-- Embeds `MeshBuffers::default()`. -/
def MeshBuffers.empty : MeshBuffers :=
  { positions := [], normals := [], uvs := [], tile_layers := none, indices := [], next_index := 0 }

/-- Embeds `MeshBuffers::with_tile_types` from src/terrain.rs. -/
def MeshBuffers.with_tile_types : MeshBuffers :=
  { MeshBuffers.empty with tile_layers := some [] }

/-- Embeds `push_triangle` from src/terrain.rs. The source stores
`(b-a).cross(c-a).normalize_or_zero()`; normalization divides by a floating-point
square root, which has no exact rational counterpart, so the normal is kept
unnormalized here (same direction, same entry count; no claim concerns its length). -/
def push_triangle (buf : MeshBuffers) (a b c : Vec3) (ta tb tc : ℚ × ℚ) : MeshBuffers :=
  let normal := Vec3.cross (Vec3.sub b a) (Vec3.sub c a)
  { buf with
    positions := buf.positions ++ [a, b, c]
    normals := buf.normals ++ [normal, normal, normal]
    uvs := buf.uvs ++ [ta, tb, tc]
    indices := buf.indices ++ [buf.next_index, buf.next_index + 1, buf.next_index + 2]
    next_index := buf.next_index + 3 }

/-- Embeds `push_quad` from src/terrain.rs: two triangles `v0 v1 v2` and `v0 v2 v3`,
then six copies of `tile_info` (or `(0,0)`) onto the layer buffer when present. -/
def push_quad (buf : MeshBuffers) (v0 v1 v2 v3 : Vec3) (t0 t1 t2 t3 : ℚ × ℚ)
    (tile_info : Option (ℚ × ℚ)) : MeshBuffers :=
  let buf := push_triangle buf v0 v1 v2 t0 t1 t2
  let buf := push_triangle buf v0 v2 v3 t0 t2 t3
  match buf.tile_layers with
  | some layers =>
    { buf with tile_layers := some (layers ++ List.replicate 6 (tile_info.getD (0, 0))) }
  | none => buf

/-- Embeds `EPS` from `add_side_face` in src/terrain.rs (1e-4). -/
def EPS : ℚ := 1 / 10000

/-- Embeds `add_side_face` from src/terrain.rs. The four `match direction` arms of the
source produce identical vertex and texture tuples, so the match collapses; the
`direction` argument is kept to mirror the signature. -/
def add_side_face (buf : MeshBuffers) (top_a top_b bottom_a bottom_b : Vec3)
    (direction : RampDirection) (tile_layer : Option ℚ) (bottom_layer : Option ℚ)
    (seam_height : ℚ) : MeshBuffers :=
  if |top_a.y - bottom_a.y| < EPS ∧ |top_b.y - bottom_b.y| < EPS then buf
  else
    let bottom_value := (bottom_layer.or tile_layer).getD 0
    let bottom_height := min bottom_a.y bottom_b.y
    push_quad buf top_a top_b bottom_b bottom_a
      (bottom_value, bottom_height) (bottom_value, bottom_height)
      (bottom_value, bottom_height) (bottom_value, bottom_height)
      (tile_layer.map (fun layer => (layer, seam_height)))

/-- The corner-height cache of `populate_mesh_buffers` (src/terrain.rs lines 95-101),
indexed by `TileMap.idx` exactly as the source array is; the source fills a vector with
the values of the pure function `tile_corner_heights`, embedded here as the indexing
function itself. -/
def corner_cache (map : TileMap) : Nat → Corners :=
  fun i => tile_corner_heights map (i % map.width) (i / map.width)

/-- The arguments `append_tile_geometry` (src/terrain.rs lines 148-234) hands to
`add_side_face` for one edge of tile `(x, y)`. -/
structure SideArgs where
  top_a : Vec3
  top_b : Vec3
  bottom_a : Vec3
  bottom_b : Vec3
  bottom_layer : Option ℚ
  seam_height : ℚ
deriving DecidableEq, Repr

/-- The per-edge blocks of `append_tile_geometry` (src/terrain.rs lines 148-234):
neighbor bottom corners from the cache (the `(0.0, 0.0)` sentinel at map borders),
bottom rail at the pointwise minimum, neighbor layer when the neighbor is in-grid. -/
def side_args (map : TileMap) (cache : Nat → Corners) (x y : Nat) (dir : RampDirection) :
    SideArgs :=
  let corners := cache (map.idx x y)
  let x0 := (x : ℚ) * TILE_SIZE
  let x1 := x0 + TILE_SIZE
  let z0 := (y : ℚ) * TILE_SIZE
  let z1 := z0 + TILE_SIZE
  let nw : Vec3 := { x := x0, y := corners.nw, z := z0 }
  let ne : Vec3 := { x := x1, y := corners.ne, z := z0 }
  let sw : Vec3 := { x := x0, y := corners.sw, z := z1 }
  let se : Vec3 := { x := x1, y := corners.se, z := z1 }
  match dir with
  | RampDirection.North =>
    let b := if 0 < y then
        ((cache (map.idx x (y - 1))).sw, (cache (map.idx x (y - 1))).se)
      else (0, 0)
    let layer := if 0 < y then some ((map.get x (y - 1)).tile_type.as_index : ℚ) else none
    { top_a := nw, top_b := ne
      bottom_a := { x := x0, y := min b.1 nw.y, z := z0 }
      bottom_b := { x := x1, y := min b.2 ne.y, z := z0 }
      bottom_layer := layer, seam_height := max nw.y ne.y }
  | RampDirection.South =>
    let b := if y + 1 < map.height then
        ((cache (map.idx x (y + 1))).nw, (cache (map.idx x (y + 1))).ne)
      else (0, 0)
    let layer := if y + 1 < map.height then
        some ((map.get x (y + 1)).tile_type.as_index : ℚ) else none
    { top_a := se, top_b := sw
      bottom_a := { x := x1, y := min b.2 se.y, z := z1 }
      bottom_b := { x := x0, y := min b.1 sw.y, z := z1 }
      bottom_layer := layer, seam_height := max se.y sw.y }
  | RampDirection.West =>
    let b := if 0 < x then
        ((cache (map.idx (x - 1) y)).ne, (cache (map.idx (x - 1) y)).se)
      else (0, 0)
    let layer := if 0 < x then some ((map.get (x - 1) y).tile_type.as_index : ℚ) else none
    { top_a := sw, top_b := nw
      bottom_a := { x := x0, y := min b.2 sw.y, z := z1 }
      bottom_b := { x := x0, y := min b.1 nw.y, z := z0 }
      bottom_layer := layer, seam_height := max sw.y nw.y }
  | RampDirection.East =>
    let b := if x + 1 < map.width then
        ((cache (map.idx (x + 1) y)).nw, (cache (map.idx (x + 1) y)).sw)
      else (0, 0)
    let layer := if x + 1 < map.width then
        some ((map.get (x + 1) y).tile_type.as_index : ℚ) else none
    { top_a := ne, top_b := se
      bottom_a := { x := x1, y := min b.1 ne.y, z := z0 }
      bottom_b := { x := x1, y := min b.2 se.y, z := z1 }
      bottom_layer := layer, seam_height := max ne.y se.y }

/-- One `buffer.add_side_face(...)` call of `append_tile_geometry`. -/
def apply_side (map : TileMap) (cache : Nat → Corners) (x y : Nat) (buf : MeshBuffers)
    (tile_layer : Option ℚ) (dir : RampDirection) : MeshBuffers :=
  let a := side_args map cache x y dir
  add_side_face buf a.top_a a.top_b a.bottom_a a.bottom_b dir tile_layer
    a.bottom_layer a.seam_height

/-- Embeds `append_tile_geometry` from src/terrain.rs: the top quad
`[nw, sw, se, ne]` with all-zero texture coordinates and `seam = top_height`
(the fold of `max` over the four corners), then the North, South, West, East
skirts in source order. -/
def append_tile_geometry (map : TileMap) (cache : Nat → Corners) (x y : Nat)
    (buf : MeshBuffers) (tile_layer : Option ℚ) : MeshBuffers :=
  let corners := cache (map.idx x y)
  let x0 := (x : ℚ) * TILE_SIZE
  let x1 := x0 + TILE_SIZE
  let z0 := (y : ℚ) * TILE_SIZE
  let z1 := z0 + TILE_SIZE
  let nw : Vec3 := { x := x0, y := corners.nw, z := z0 }
  let ne : Vec3 := { x := x1, y := corners.ne, z := z0 }
  let sw : Vec3 := { x := x0, y := corners.sw, z := z1 }
  let se : Vec3 := { x := x1, y := corners.se, z := z1 }
  let top_height := max (max (max corners.nw corners.ne) corners.sw) corners.se
  let buf := push_quad buf nw sw se ne (0, 0) (0, 0) (0, 0) (0, 0)
    (tile_layer.map (fun layer => (layer, top_height)))
  let buf := apply_side map cache x y buf tile_layer RampDirection.North
  let buf := apply_side map cache x y buf tile_layer RampDirection.South
  let buf := apply_side map cache x y buf tile_layer RampDirection.West
  apply_side map cache x y buf tile_layer RampDirection.East

/-- The combined-buffer path of `populate_mesh_buffers` from src/terrain.rs:
early return on an empty grid, then row-major iteration appending each tile with
`tile_layer = some (tile_type.as_index)`. -/
def populate_combined (map : TileMap) (buf0 : MeshBuffers) : MeshBuffers :=
  if map.width = 0 ∨ map.height = 0 then buf0
  else
    (List.range map.height).foldl
      (fun buf y =>
        (List.range map.width).foldl
          (fun buf x =>
            append_tile_geometry map (corner_cache map) x y buf
              (some ((map.get x y).tile_type.as_index : ℚ)))
          buf)
      buf0

/-- Association-list stand-in for the `HashMap<TileType, MeshBuffers>` of
`build_map_meshes`: find the entry or append a default one, then update it. -/
def update_entry (l : List (TileType × MeshBuffers)) (t : TileType)
    (f : MeshBuffers → MeshBuffers) : List (TileType × MeshBuffers) :=
  match l with
  | [] => [(t, f MeshBuffers.empty)]
  | (u, b) :: rest =>
    if u = t then (u, f b) :: rest else (u, b) :: update_entry rest t f

/-- The per-type path of `populate_mesh_buffers` from src/terrain.rs
(`buffers.entry(tile_type).or_default()` then `append_tile_geometry` with
`tile_layer = None`). The source drives both paths from one loop; the two paths never
exchange data, so they are embedded as separate functions. -/
def populate_per_type (map : TileMap) (buf0 : List (TileType × MeshBuffers)) :
    List (TileType × MeshBuffers) :=
  if map.width = 0 ∨ map.height = 0 then buf0
  else
    (List.range map.height).foldl
      (fun bufs y =>
        (List.range map.width).foldl
          (fun bufs x =>
            update_entry bufs (map.get x y).tile_type
              (fun buf => append_tile_geometry map (corner_cache map) x y buf none))
          bufs)
      buf0

/-- Embeds bevy `Mesh` as far as the core writes it: the attributes
`into_mesh` may insert, each `none` when never inserted. -/
structure Mesh where
  position : Option (List Vec3)
  normal : Option (List Vec3)
  uv0 : Option (List (ℚ × ℚ))
  uv1 : Option (List (ℚ × ℚ))
  indices : Option (List Nat)
deriving DecidableEq, Repr

/-- Embeds `empty_mesh` from src/terrain.rs: a mesh with no attributes inserted. -/
def empty_mesh : Mesh :=
  { position := none, normal := none, uv0 := none, uv1 := none, indices := none }

/-- Embeds `MeshBuffers::into_mesh` from src/terrain.rs: position, normal and uv0 are
always inserted; uv1 only when the layer buffer exists and is nonempty; indices only
when nonempty. -/
def MeshBuffers.into_mesh (b : MeshBuffers) : Mesh :=
  { position := some b.positions
    normal := some b.normals
    uv0 := some b.uvs
    uv1 :=
      match b.tile_layers with
      | some layers => if layers.isEmpty then none else some layers
      | none => none
    indices := if b.indices.isEmpty then none else some b.indices }

/-- Embeds `build_combined_mesh` from src/terrain.rs. -/
def build_combined_mesh (map : TileMap) : Mesh :=
  (populate_combined map MeshBuffers.with_tile_types).into_mesh

/-- Embeds `build_map_meshes` from src/terrain.rs (one mesh per encountered tile type). -/
def build_map_meshes (map : TileMap) : List (TileType × Mesh) :=
  (populate_per_type map []).map (fun p => (p.1, p.2.into_mesh))

/-- Texture formats the splatmap code distinguishes. -/
inductive TextureFormat where
  | Rgba8Unorm
  | Other
deriving DecidableEq, Repr

/-- Embeds bevy `Image` as far as the splatmap code reads and writes it:
descriptor size, descriptor format, and the byte buffer (one `Nat` per byte). -/
structure Image where
  width : Nat
  height : Nat
  format : TextureFormat
  data : List Nat
deriving DecidableEq, Repr

/-- Embeds `CHANNELS` from the `splatmap` module of src/terrain.rs. -/
def CHANNELS : Nat := 4

/-- The pixel assembled per tile in `splatmap::write` (src/terrain.rs lines 514-519):
four zero channels, then channel `as_index` set to 255 when it is in range. -/
def splat_pixel (t : Tile) : List Nat :=
  let pixel := List.replicate CHANNELS 0
  let layer := t.tile_type.as_index
  if layer < CHANNELS then pixel.set layer 255 else pixel

/-- Embeds the `copy_from_slice` of a pixel into `image.data[idx..idx+CHANNELS]`. -/
def write_block (data : List Nat) (idx : Nat) (pixel : List Nat) : List Nat :=
  data.take idx ++ pixel ++ data.drop (idx + pixel.length)

/-- The double loop of `splatmap::write` (src/terrain.rs lines 512-524). -/
def splat_loop (map : TileMap) (width : Nat) (data : List Nat) : List Nat :=
  (List.range map.height).foldl
    (fun d y =>
      (List.range map.width).foldl
        (fun d x => write_block d ((y * width + x) * CHANNELS) (splat_pixel (map.get x y)))
        d)
    data

/-- Embeds `splatmap::extent_from_map` from src/terrain.rs. -/
def extent_from_map (map : TileMap) : Nat × Nat :=
  (max map.width 1, max map.height 1)

/-- The body of `splatmap::write` after the descriptor check has passed
(src/terrain.rs lines 499-524): resize the buffer to `width*height*CHANNELS`
(padding with zeros, exactly as `Vec::resize`), zero-fill on an empty grid,
otherwise run the pixel loop. `configure_image` only touches sampler and usage
metadata, which this embedding does not carry. -/
def splat_write_fit (map : TileMap) (image : Image) : Image :=
  let w := (extent_from_map map).1
  let h := (extent_from_map map).2
  let required := w * h * CHANNELS
  let data0 :=
    if image.data.length ≠ required then
      image.data.take required ++ List.replicate (required - image.data.length) 0
    else image.data
  if map.width = 0 ∨ map.height = 0 then
    { image with data := List.replicate data0.length 0 }
  else
    { image with data := splat_loop map w data0 }

/-- Embeds `splatmap::create` from src/terrain.rs: a fresh zero-filled Rgba8Unorm
image of the extent size, then the write loop (whose descriptor check passes by
construction, embedded by calling the post-check body directly). -/
def splat_create (map : TileMap) : Image :=
  let w := (extent_from_map map).1
  let h := (extent_from_map map).2
  splat_write_fit map
    { width := w, height := h, format := TextureFormat.Rgba8Unorm
      data := List.replicate (w * h * CHANNELS) 0 }

/-- Embeds `splatmap::write` from src/terrain.rs: on a size or format mismatch the
image is replaced by `create`, otherwise the in-place path runs. -/
def splat_write (map : TileMap) (image : Image) : Image :=
  if image.width ≠ (extent_from_map map).1 ∨ image.height ≠ (extent_from_map map).2 ∨
      image.format ≠ TextureFormat.Rgba8Unorm then
    splat_create map
  else
    splat_write_fit map image

/-- The skip condition of `add_side_face` (src/terrain.rs lines 428-431): both skirt
endpoints have top-to-bottom gap below `EPS`. -/
def side_skip (a : SideArgs) : Prop :=
  |a.top_a.y - a.bottom_a.y| < EPS ∧ |a.top_b.y - a.bottom_b.y| < EPS

instance instDecidableSideSkip (a : SideArgs) : Decidable (side_skip a) := by
  unfold side_skip
  infer_instance

/-- The six uv0 entries a non-skipped skirt quad appends: the constant
`(bottom_value, bottom_height)` pair of `add_side_face`. -/
def side_uv_block (a : SideArgs) (tl : Option ℚ) : List (ℚ × ℚ) :=
  if side_skip a then []
  else List.replicate 6 ((a.bottom_layer.or tl).getD 0, min a.bottom_a.y a.bottom_b.y)

/-- The six layer-attribute (uv1) entries a non-skipped skirt quad appends:
`(own tile layer, seam_height)`, or the `(0, 0)` filler when no layer was supplied. -/
def side_layer_block (a : SideArgs) (tl : Option ℚ) : List (ℚ × ℚ) :=
  if side_skip a then []
  else List.replicate 6 ((tl.map (fun layer => (layer, a.seam_height))).getD (0, 0))

/-- The fold of `max` over the four corner heights (`top_height` in
`append_tile_geometry`). -/
def top_height_of (c : Corners) : ℚ :=
  max (max (max c.nw c.ne) c.sw) c.se

/-- The six position entries a non-skipped skirt quad appends (`push_quad` on
`[top_a, top_b, bottom_b, bottom_a]`). -/
def side_pos_block (a : SideArgs) : List Vec3 :=
  if side_skip a then []
  else [a.top_a, a.top_b, a.bottom_b, a.top_a, a.bottom_b, a.bottom_a]

/-- A 1x1 map holding a single Ramp tile at elevation 1 with no explicit direction:
every neighbor is off-grid. -/
def borderRampMap : TileMap :=
  { width := 1, height := 1
    tiles := [{ kind := TileKind.Ramp, tile_type := TileType.Grass, x := 0, y := 0
                elevation := 1, ramp_direction := none }] }

/-- A 1x2 column: Grass floor at elevation 1 over Dirt floor at elevation 0. -/
def stepMap : TileMap :=
  { width := 1, height := 2
    tiles := [{ kind := TileKind.Floor, tile_type := TileType.Grass, x := 0, y := 0
                elevation := 1, ramp_direction := none },
              { kind := TileKind.Floor, tile_type := TileType.Dirt, x := 0, y := 1
                elevation := 0, ramp_direction := none }] }

/-- A 2x1 row of default Floor Grass tiles at elevation 0. -/
def flatRowMap : TileMap := TileMap.new 2 1

/-- A 2x1 row: Ramp at elevation 1 with no explicit direction beside a Floor at
elevation 0 (the ramp auto-resolves toward East). -/
def autoRampMap : TileMap :=
  { width := 2, height := 1
    tiles := [{ kind := TileKind.Ramp, tile_type := TileType.Grass, x := 0, y := 0
                elevation := 1, ramp_direction := none },
              { kind := TileKind.Floor, tile_type := TileType.Grass, x := 1, y := 0
                elevation := 0, ramp_direction := none }] }

/-- A 1x2 column: Ramp at elevation 1 with explicit South direction over a Floor at
elevation 0. -/
def southRampMap : TileMap :=
  { width := 1, height := 2
    tiles := [{ kind := TileKind.Ramp, tile_type := TileType.Grass, x := 0, y := 0
                elevation := 1, ramp_direction := some RampDirection.South },
              { kind := TileKind.Floor, tile_type := TileType.Grass, x := 0, y := 1
                elevation := 0, ramp_direction := none }] }

/-! Lemmas about the corner-height resolver. -/

theorem ramp_neighbor_height_lt {map : TileMap} {x y : Nat} {dir : RampDirection}
    {base h : ℚ} (hsome : ramp_neighbor_height map x y dir base = some h) : h < base := by
  simp only [ramp_neighbor_height] at hsome
  split at hsome
  · exact absurd hsome (by simp)
  · split at hsome
    · exact absurd hsome (by simp)
    · split at hsome
      · rename_i hlt
        obtain rfl := Option.some.inj hsome
        exact hlt
      · exact absurd hsome (by simp)

theorem ramp_neighbor_height_some_iff (map : TileMap) (x y : Nat) (dir : RampDirection)
    (base h : ℚ) :
    ramp_neighbor_height map x y dir base = some h ↔
      (0 ≤ (x : Int) + dir.offset.1 ∧ 0 ≤ (y : Int) + dir.offset.2 ∧
        ((x : Int) + dir.offset.1).toNat < map.width ∧
        ((y : Int) + dir.offset.2).toNat < map.height ∧
        h = ((map.get ((x : Int) + dir.offset.1).toNat
              ((y : Int) + dir.offset.2).toNat).elevation : ℚ) * TILE_HEIGHT ∧
        h < base) := by
  simp only [ramp_neighbor_height]
  split
  · rename_i hcond
    constructor
    · intro hfalse; exact absurd hfalse (by simp)
    · rintro ⟨h1, h2, -⟩; omega
  · rename_i hcond
    split
    · rename_i hcond2
      constructor
      · intro hfalse; exact absurd hfalse (by simp)
      · rintro ⟨-, -, h3, h4, -⟩; omega
    · rename_i hcond2
      split
      · rename_i hlt
        simp only [Option.some.injEq]
        constructor
        · rintro rfl
          exact ⟨by omega, by omega, by omega, by omega, rfl, hlt⟩
        · rintro ⟨-, -, -, -, rfl, -⟩; rfl
      · rename_i hnlt
        constructor
        · intro hfalse; exact absurd hfalse (by simp)
        · rintro ⟨-, -, -, -, rfl, hlt2⟩; exact absurd hlt2 hnlt

theorem ramp_scan_step_eq_none_iff (map : TileMap) (x y : Nat) (base : ℚ)
    (init : Option (RampDirection × ℚ)) (dir : RampDirection) :
    ramp_scan_step map x y base init dir = none ↔
      (init = none ∧ ramp_neighbor_height map x y dir base = none) := by
  unfold ramp_scan_step
  rcases hq : ramp_neighbor_height map x y dir base with _ | hh
  · simp
  · rcases init with _ | ⟨d, e⟩
    · simp
    · by_cases hle : e ≤ hh <;> simp [hle]

theorem ramp_scan_step_eq_some (map : TileMap) (x y : Nat) (base : ℚ)
    (init : Option (RampDirection × ℚ)) (dir : RampDirection) (d : RampDirection) (h : ℚ)
    (hstep : ramp_scan_step map x y base init dir = some (d, h)) :
    init = some (d, h) ∨ (d = dir ∧ ramp_neighbor_height map x y dir base = some h) := by
  unfold ramp_scan_step at hstep
  rcases hq : ramp_neighbor_height map x y dir base with _ | hh <;>
    rw [hq] at hstep <;> dsimp only at hstep
  · exact Or.inl hstep
  · rcases init with _ | ⟨d0, e0⟩ <;> dsimp only at hstep
    · obtain ⟨rfl, rfl⟩ := Prod.mk.injEq .. |>.mp (Option.some.inj hstep)
      exact Or.inr ⟨rfl, rfl⟩
    · by_cases hle : e0 ≤ hh
      · rw [if_pos hle] at hstep
        exact Or.inl hstep
      · rw [if_neg hle] at hstep
        obtain ⟨rfl, rfl⟩ := Prod.mk.injEq .. |>.mp (Option.some.inj hstep)
        exact Or.inr ⟨rfl, rfl⟩

theorem ramp_scan_step_le (map : TileMap) (x y : Nat) (base : ℚ)
    (init : Option (RampDirection × ℚ)) (dir : RampDirection) (d : RampDirection) (h : ℚ)
    (hstep : ramp_scan_step map x y base init dir = some (d, h)) :
    (∀ d0 h0, init = some (d0, h0) → h ≤ h0) ∧
    (∀ hq, ramp_neighbor_height map x y dir base = some hq → h ≤ hq) := by
  unfold ramp_scan_step at hstep
  rcases hq : ramp_neighbor_height map x y dir base with _ | hh <;>
    rw [hq] at hstep <;> dsimp only at hstep
  · constructor
    · intro d0 h0 hinit
      rw [hinit] at hstep
      obtain ⟨rfl, rfl⟩ := Prod.mk.injEq .. |>.mp (Option.some.inj hstep)
      exact le_refl _
    · intro hq2 hfalse; exact absurd hfalse (by simp)
  · rcases init with _ | ⟨d0, e0⟩ <;> dsimp only at hstep
    · obtain ⟨rfl, rfl⟩ := Prod.mk.injEq .. |>.mp (Option.some.inj hstep)
      constructor
      · intro d0 h0 hfalse; exact absurd hfalse (by simp)
      · intro hq2 hsome
        obtain rfl := Option.some.inj hsome
        exact le_refl _
    · by_cases hle : e0 ≤ hh
      · rw [if_pos hle] at hstep
        obtain ⟨rfl, rfl⟩ := Prod.mk.injEq .. |>.mp (Option.some.inj hstep)
        constructor
        · rintro d1 h1 hinit
          obtain ⟨rfl, rfl⟩ := Prod.mk.injEq .. |>.mp (Option.some.inj hinit)
          exact le_refl _
        · intro hq2 hsome
          obtain rfl := Option.some.inj hsome
          exact hle
      · rw [if_neg hle] at hstep
        obtain ⟨rfl, rfl⟩ := Prod.mk.injEq .. |>.mp (Option.some.inj hstep)
        constructor
        · rintro d1 h1 hinit
          obtain ⟨rfl, rfl⟩ := Prod.mk.injEq .. |>.mp (Option.some.inj hinit)
          exact le_of_not_le hle
        · intro hq2 hsome
          obtain rfl := Option.some.inj hsome
          exact le_refl _

theorem ramp_scan_step_ne_none (map : TileMap) (x y : Nat) (base : ℚ)
    (init : Option (RampDirection × ℚ)) (dir : RampDirection)
    (hne : init ≠ none ∨ ramp_neighbor_height map x y dir base ≠ none) :
    ramp_scan_step map x y base init dir ≠ none := by
  intro hno
  rw [ramp_scan_step_eq_none_iff] at hno
  rcases hne with hne | hne
  · exact hne hno.1
  · exact hne hno.2

theorem ramp_fold_none_iff (map : TileMap) (x y : Nat) (base : ℚ) :
    ∀ (l : List RampDirection) (init : Option (RampDirection × ℚ)),
      l.foldl (ramp_scan_step map x y base) init = none ↔
        (init = none ∧ ∀ d ∈ l, ramp_neighbor_height map x y d base = none) := by
  intro l
  induction l with
  | nil => intro init; simp
  | cons a t ih =>
    intro init
    simp only [List.foldl_cons]
    rw [ih, ramp_scan_step_eq_none_iff]
    constructor
    · rintro ⟨⟨h1, h2⟩, h3⟩
      exact ⟨h1, by
        intro d hd
        rcases List.mem_cons.mp hd with rfl | hd
        · exact h2
        · exact h3 d hd⟩
    · rintro ⟨h1, h2⟩
      exact ⟨⟨h1, h2 a (List.mem_cons_self a t)⟩, fun d hd => h2 d (List.mem_cons_of_mem a hd)⟩

theorem ramp_fold_some_mem (map : TileMap) (x y : Nat) (base : ℚ) :
    ∀ (l : List RampDirection) (init : Option (RampDirection × ℚ)) (d : RampDirection)
      (h : ℚ), l.foldl (ramp_scan_step map x y base) init = some (d, h) →
        init = some (d, h) ∨ (d ∈ l ∧ ramp_neighbor_height map x y d base = some h) := by
  intro l
  induction l with
  | nil => intro init d h hfold; exact Or.inl hfold
  | cons a t ih =>
    intro init d h hfold
    simp only [List.foldl_cons] at hfold
    rcases ih (ramp_scan_step map x y base init a) d h hfold with hstep | ⟨hmem, hq⟩
    · rcases ramp_scan_step_eq_some map x y base init a d h hstep with hinit | ⟨heq, hq⟩
      · exact Or.inl hinit
      · exact Or.inr ⟨by rw [heq]; exact List.mem_cons_self a t, by rw [heq]; exact hq⟩
    · exact Or.inr ⟨List.mem_cons_of_mem a hmem, hq⟩

theorem ramp_fold_min (map : TileMap) (x y : Nat) (base : ℚ) :
    ∀ (l : List RampDirection) (init : Option (RampDirection × ℚ)) (d : RampDirection)
      (h : ℚ), l.foldl (ramp_scan_step map x y base) init = some (d, h) →
        (∀ d0 h0, init = some (d0, h0) → h ≤ h0) ∧
        (∀ dq, dq ∈ l → ∀ hq, ramp_neighbor_height map x y dq base = some hq → h ≤ hq) := by
  intro l
  induction l with
  | nil =>
    intro init d h hfold
    constructor
    · rintro d0 h0 rfl
      obtain ⟨rfl, rfl⟩ := Prod.mk.injEq .. |>.mp (Option.some.inj hfold)
      exact le_refl _
    · intro dq hdq; exact absurd hdq (by simp)
  | cons a t ih =>
    intro init d h hfold
    simp only [List.foldl_cons] at hfold
    obtain ⟨ih1, ih2⟩ := ih (ramp_scan_step map x y base init a) d h hfold
    have hstepkey : ∀ d1 h1, ramp_scan_step map x y base init a = some (d1, h1) →
        (∀ d0 h0, init = some (d0, h0) → h ≤ h0) ∧
        (∀ hq, ramp_neighbor_height map x y a base = some hq → h ≤ hq) := by
      intro d1 h1 hstep
      obtain ⟨hs1, hs2⟩ := ramp_scan_step_le map x y base init a d1 h1 hstep
      constructor
      · intro d0 h0 hinit
        exact le_trans (ih1 d1 h1 hstep) (hs1 d0 h0 hinit)
      · intro hq hsome
        exact le_trans (ih1 d1 h1 hstep) (hs2 hq hsome)
    constructor
    · intro d0 h0 hinit
      have hne : ramp_scan_step map x y base init a ≠ none :=
        ramp_scan_step_ne_none map x y base init a (Or.inl (by simp [hinit]))
      rcases hstep : ramp_scan_step map x y base init a with _ | ⟨d1, h1⟩
      · exact absurd hstep hne
      · exact (hstepkey d1 h1 hstep).1 d0 h0 hinit
    · intro dq hdq hq hsome
      rcases List.mem_cons.mp hdq with rfl | hdq
      · have hne : ramp_scan_step map x y base init dq ≠ none :=
          ramp_scan_step_ne_none map x y base init dq (Or.inr (by simp [hsome]))
        rcases hstep : ramp_scan_step map x y base init dq with _ | ⟨d1, h1⟩
        · exact absurd hstep hne
        · exact (hstepkey d1 h1 hstep).2 hq hsome
      · exact ih2 dq hdq hq hsome

theorem find_ramp_target_some_rnh {map : TileMap} {x y : Nat} {base : ℚ}
    {d : RampDirection} {h : ℚ} (hres : find_ramp_target map x y base = some (d, h)) :
    ramp_neighbor_height map x y d base = some h := by
  rcases ramp_fold_some_mem map x y base RampDirection.ALL none d h hres with hfalse | ⟨-, hq⟩
  · exact absurd hfalse (by simp)
  · exact hq

theorem find_ramp_target_min {map : TileMap} {x y : Nat} {base : ℚ}
    {d : RampDirection} {h : ℚ} (hres : find_ramp_target map x y base = some (d, h)) :
    ∀ dq hq, ramp_neighbor_height map x y dq base = some hq → h ≤ hq := by
  intro dq hq hsome
  exact (ramp_fold_min map x y base RampDirection.ALL none d h hres).2 dq
    (by cases dq <;> simp [RampDirection.ALL]) hq hsome

theorem find_ramp_target_tie {map : TileMap} {x y : Nat} {base : ℚ}
    {d : RampDirection} {h : ℚ} (hres : find_ramp_target map x y base = some (d, h)) :
    ∀ dq, ramp_neighbor_height map x y dq base = some h →
      d.scanIndex ≤ dq.scanIndex := by
  intro dq hdq
  unfold find_ramp_target RampDirection.ALL at hres
  simp only [List.foldl_cons, List.foldl_nil] at hres
  rcases hN : ramp_neighbor_height map x y RampDirection.North base with _ | hn <;>
    rcases hE : ramp_neighbor_height map x y RampDirection.East base with _ | he <;>
      rcases hS : ramp_neighbor_height map x y RampDirection.South base with _ | hs <;>
        rcases hW : ramp_neighbor_height map x y RampDirection.West base with _ | hw <;>
          simp only [ramp_scan_step, hN, hE, hS, hW] at hres
  all_goals (try split_ifs at hres)
  all_goals (try dsimp only at hres)
  all_goals (try split_ifs at hres)
  all_goals (try dsimp only at hres)
  all_goals (try split_ifs at hres)
  all_goals (try dsimp only at hres)
  all_goals (try exact Option.noConfusion hres)
  all_goals
    (obtain ⟨rfl, rfl⟩ := Prod.mk.injEq .. |>.mp (Option.some.inj hres);
     cases dq <;> simp_all [RampDirection.scanIndex] <;> first | omega | linarith)

theorem rampTarget_some_rnh {map : TileMap} {x y : Nat} {base : ℚ} {t : Tile}
    {dir : RampDirection} {h : ℚ}
    (htarget : rampTarget map x y base t = some (dir, h)) :
    ramp_neighbor_height map x y dir base = some h := by
  unfold rampTarget at htarget
  rcases hrd : t.ramp_direction with _ | d0 <;> rw [hrd] at htarget
  · exact find_ramp_target_some_rnh htarget
  · simp only [Option.bind] at htarget
    rcases hq : ramp_neighbor_height map x y d0 base with _ | h0 <;> rw [hq] at htarget
    · exact find_ramp_target_some_rnh htarget
    · obtain ⟨rfl, rfl⟩ := Prod.mk.injEq .. |>.mp (Option.some.inj htarget)
      exact hq

theorem rampTarget_eq_none {map : TileMap} {x y : Nat} {base : ℚ} {t : Tile}
    (hall : ∀ dir, ramp_neighbor_height map x y dir base = none) :
    rampTarget map x y base t = none := by
  have hfind : find_ramp_target map x y base = none := by
    unfold find_ramp_target
    rw [ramp_fold_none_iff]
    exact ⟨rfl, fun d _ => hall d⟩
  unfold rampTarget
  rcases hrd : t.ramp_direction with _ | d0
  · exact hfind
  · simp only [Option.bind]
    rw [hall d0]
    exact hfind

/-! Theorems for the corner-height claims. -/

/-- C10: for every tile of every grid, each of the four resolved corner heights is at
most the tile's base height `elevation * TILE_HEIGHT` (corners are only ever lowered),
and at least two of the four corners equal the base height exactly. -/
theorem corners_below_base_and_two_anchored (map : TileMap) (x y : Nat) :
    ((tile_corner_heights map x y).nw ≤ ((map.get x y).elevation : ℚ) * TILE_HEIGHT ∧
     (tile_corner_heights map x y).ne ≤ ((map.get x y).elevation : ℚ) * TILE_HEIGHT ∧
     (tile_corner_heights map x y).sw ≤ ((map.get x y).elevation : ℚ) * TILE_HEIGHT ∧
     (tile_corner_heights map x y).se ≤ ((map.get x y).elevation : ℚ) * TILE_HEIGHT) ∧
    (((tile_corner_heights map x y).nw = ((map.get x y).elevation : ℚ) * TILE_HEIGHT ∧
      (tile_corner_heights map x y).ne = ((map.get x y).elevation : ℚ) * TILE_HEIGHT) ∨
     ((tile_corner_heights map x y).nw = ((map.get x y).elevation : ℚ) * TILE_HEIGHT ∧
      (tile_corner_heights map x y).sw = ((map.get x y).elevation : ℚ) * TILE_HEIGHT) ∨
     ((tile_corner_heights map x y).nw = ((map.get x y).elevation : ℚ) * TILE_HEIGHT ∧
      (tile_corner_heights map x y).se = ((map.get x y).elevation : ℚ) * TILE_HEIGHT) ∨
     ((tile_corner_heights map x y).ne = ((map.get x y).elevation : ℚ) * TILE_HEIGHT ∧
      (tile_corner_heights map x y).sw = ((map.get x y).elevation : ℚ) * TILE_HEIGHT) ∨
     ((tile_corner_heights map x y).ne = ((map.get x y).elevation : ℚ) * TILE_HEIGHT ∧
      (tile_corner_heights map x y).se = ((map.get x y).elevation : ℚ) * TILE_HEIGHT) ∨
     ((tile_corner_heights map x y).sw = ((map.get x y).elevation : ℚ) * TILE_HEIGHT ∧
      (tile_corner_heights map x y).se = ((map.get x y).elevation : ℚ) * TILE_HEIGHT)) := by
  simp only [tile_corner_heights]
  split
  · split
    · rename_i th heq
      obtain ⟨dir, h⟩ := th
      have hlt : h < ((map.get x y).elevation : ℚ) * TILE_HEIGHT :=
        ramp_neighbor_height_lt (rampTarget_some_rnh heq)
      cases dir <;>
        simp only [applyRamp] <;>
          exact ⟨⟨by first | exact le_of_lt hlt | exact le_refl _,
                  by first | exact le_of_lt hlt | exact le_refl _,
                  by first | exact le_of_lt hlt | exact le_refl _,
                  by first | exact le_of_lt hlt | exact le_refl _⟩, by tauto⟩
    · exact ⟨⟨le_refl _, le_refl _, le_refl _, le_refl _⟩, Or.inl ⟨rfl, rfl⟩⟩
  · exact ⟨⟨le_refl _, le_refl _, le_refl _, le_refl _⟩, Or.inl ⟨rfl, rfl⟩⟩

/-- C3: for every Ramp tile whose target edge `dir` with target height `h` has been
resolved, `tile_corner_heights` lowers exactly the two corners adjacent to `dir` to `h`
while the two opposite corners keep the base height, and `h` is strictly below base
(a single-axis ramp, never a hip or valley). -/
theorem ramp_lowers_exactly_target_edge (map : TileMap) (x y : Nat) (base : ℚ)
    (dir : RampDirection) (h : ℚ)
    (hkind : (map.get x y).kind = TileKind.Ramp)
    (hbase : base = ((map.get x y).elevation : ℚ) * TILE_HEIGHT)
    (htarget : rampTarget map x y base (map.get x y) = some (dir, h)) :
    tile_corner_heights map x y =
      (match dir with
       | RampDirection.North => { nw := h, ne := h, sw := base, se := base }
       | RampDirection.South => { nw := base, ne := base, sw := h, se := h }
       | RampDirection.West => { nw := h, ne := base, sw := h, se := base }
       | RampDirection.East => { nw := base, ne := h, sw := base, se := h }) ∧
    h < base := by
  subst hbase
  have hlt : h < ((map.get x y).elevation : ℚ) * TILE_HEIGHT :=
    ramp_neighbor_height_lt (rampTarget_some_rnh htarget)
  refine ⟨?_, hlt⟩
  simp only [tile_corner_heights, hkind, if_pos, htarget]
  cases dir <;> rfl

/-- C6 counterexample: a 1x1 grid holding a Ramp tile at elevation 1 (base height 2/5)
has only off-grid neighbors; the claim says the resolver treats them as height 0 and
slants toward one of them, but the code returns no candidate for every edge and keeps
all four corners at the base height, none at 0. -/
theorem border_ramp_keeps_base_corners :
    tile_corner_heights borderRampMap 0 0 =
      { nw := 2/5, ne := 2/5, sw := 2/5, se := 2/5 } ∧
    ramp_neighbor_height borderRampMap 0 0 RampDirection.North (2/5) = none ∧
    ramp_neighbor_height borderRampMap 0 0 RampDirection.East (2/5) = none ∧
    ramp_neighbor_height borderRampMap 0 0 RampDirection.South (2/5) = none ∧
    ramp_neighbor_height borderRampMap 0 0 RampDirection.West (2/5) = none ∧
    ((2 : ℚ)/5) ≠ 0 := by
  refine ⟨?_, ?_, ?_, ?_, ?_, by norm_num⟩ <;>
    norm_num [tile_corner_heights, rampTarget, find_ramp_target, ramp_scan_step,
      ramp_neighbor_height, RampDirection.ALL, RampDirection.offset, applyRamp,
      borderRampMap, TileMap.get, TileMap.idx, TILE_HEIGHT, TILE_SIZE,
      ELEVATION_FRACTION, defaultTile]

/-- C6 amended: the resolver treats off-grid neighbors as nonexistent, not as height 0:
`ramp_neighbor_height` returns `none` whenever the neighbor cell lies outside the grid,
and a Ramp tile none of whose four edges has a strictly lower in-grid neighbor keeps
all four corners at its base height (Floor behavior) instead of slanting to 0. Only the
skirt bottoms of the mesh builder use a height-0 sentinel at map boundaries. -/
theorem resolver_skips_off_grid_neighbors :
    (∀ (map : TileMap) (x y : Nat) (dir : RampDirection) (base : ℚ),
        ((x : Int) + dir.offset.1 < 0 ∨ (y : Int) + dir.offset.2 < 0 ∨
         (map.width : Int) ≤ (x : Int) + dir.offset.1 ∨
         (map.height : Int) ≤ (y : Int) + dir.offset.2) →
        ramp_neighbor_height map x y dir base = none) ∧
    (∀ (map : TileMap) (x y : Nat),
        (∀ dir, ramp_neighbor_height map x y dir
            (((map.get x y).elevation : ℚ) * TILE_HEIGHT) = none) →
        tile_corner_heights map x y =
          { nw := ((map.get x y).elevation : ℚ) * TILE_HEIGHT,
            ne := ((map.get x y).elevation : ℚ) * TILE_HEIGHT,
            sw := ((map.get x y).elevation : ℚ) * TILE_HEIGHT,
            se := ((map.get x y).elevation : ℚ) * TILE_HEIGHT } ∧
        rampTarget map x y (((map.get x y).elevation : ℚ) * TILE_HEIGHT) (map.get x y) =
          none) := by
  constructor
  · intro map x y dir base hoff
    simp only [ramp_neighbor_height]
    split
    · rfl
    · split
      · rfl
      · exfalso
        rename_i hc1 hc2
        omega
  · intro map x y hall
    have hnone : rampTarget map x y (((map.get x y).elevation : ℚ) * TILE_HEIGHT)
        (map.get x y) = none := rampTarget_eq_none hall
    refine ⟨?_, hnone⟩
    simp only [tile_corner_heights, hnone]
    split <;> rfl

/-- Witness for the amended C6 theorem at a concrete border tile. -/
theorem resolver_skips_off_grid_neighbors_witness :
    ramp_neighbor_height borderRampMap 0 0 RampDirection.West 99 = none ∧
    tile_corner_heights borderRampMap 0 0 =
      { nw := ((borderRampMap.get 0 0).elevation : ℚ) * TILE_HEIGHT,
        ne := ((borderRampMap.get 0 0).elevation : ℚ) * TILE_HEIGHT,
        sw := ((borderRampMap.get 0 0).elevation : ℚ) * TILE_HEIGHT,
        se := ((borderRampMap.get 0 0).elevation : ℚ) * TILE_HEIGHT } :=
  ⟨resolver_skips_off_grid_neighbors.1 borderRampMap 0 0 RampDirection.West 99
      (by norm_num [RampDirection.offset, borderRampMap]),
   (resolver_skips_off_grid_neighbors.2 borderRampMap 0 0
      (by
        intro dir
        cases dir <;>
          norm_num [ramp_neighbor_height, RampDirection.offset, borderRampMap,
            TileMap.get, TileMap.idx, TILE_HEIGHT, TILE_SIZE, ELEVATION_FRACTION,
            defaultTile])).1⟩

/-- C2: target-edge resolution for Ramp tiles. (1) An explicit `ramp_direction` whose
neighbor qualifies is used with that neighbor's height; (2) otherwise the four-edge
scan decides; (3) a qualifying neighbor is exactly an in-grid neighbor whose base
height is strictly below the tile's base; (4) the scan returns the direction with the
lowest qualifying height, an earlier direction in the North, East, South, West order
winning ties; (5) if no edge qualifies there is no target and all four corners stay at
base height (Floor behavior). -/
theorem ramp_target_edge_selection (map : TileMap) (x y : Nat) (base : ℚ)
    (hbase : base = ((map.get x y).elevation : ℚ) * TILE_HEIGHT) :
    (∀ d h, (map.get x y).ramp_direction = some d →
       ramp_neighbor_height map x y d base = some h →
       rampTarget map x y base (map.get x y) = some (d, h)) ∧
    ((∀ d, (map.get x y).ramp_direction = some d →
        ramp_neighbor_height map x y d base = none) →
       rampTarget map x y base (map.get x y) = find_ramp_target map x y base) ∧
    (∀ d h, ramp_neighbor_height map x y d base = some h ↔
       (0 ≤ (x : Int) + d.offset.1 ∧ 0 ≤ (y : Int) + d.offset.2 ∧
        ((x : Int) + d.offset.1).toNat < map.width ∧
        ((y : Int) + d.offset.2).toNat < map.height ∧
        h = ((map.get ((x : Int) + d.offset.1).toNat
              ((y : Int) + d.offset.2).toNat).elevation : ℚ) * TILE_HEIGHT ∧
        h < base)) ∧
    (∀ d h, find_ramp_target map x y base = some (d, h) →
       ramp_neighbor_height map x y d base = some h ∧
       (∀ dq hq, ramp_neighbor_height map x y dq base = some hq →
          h < hq ∨ (h = hq ∧ d.scanIndex ≤ dq.scanIndex))) ∧
    ((∀ d, ramp_neighbor_height map x y d base = none) →
       find_ramp_target map x y base = none ∧
       tile_corner_heights map x y = { nw := base, ne := base, sw := base, se := base }) := by
  refine ⟨?_, ?_, ?_, ?_, ?_⟩
  · intro d h hrd hq
    unfold rampTarget
    rw [hrd]
    simp only [Option.bind]
    rw [hq]
    rfl
  · intro hfail
    unfold rampTarget
    rcases hrd : (map.get x y).ramp_direction with _ | d0
    · rfl
    · simp only [Option.bind]
      rw [hfail d0 hrd]
      rfl
  · intro d h
    exact ramp_neighbor_height_some_iff map x y d base h
  · intro d h hres
    refine ⟨find_ramp_target_some_rnh hres, ?_⟩
    intro dq hq hsome
    rcases lt_or_eq_of_le (find_ramp_target_min hres dq hq hsome) with hlt | rfl
    · exact Or.inl hlt
    · exact Or.inr ⟨rfl, find_ramp_target_tie hres dq hsome⟩
  · intro hall
    have hfind : find_ramp_target map x y base = none := by
      unfold find_ramp_target
      rw [ramp_fold_none_iff]
      exact ⟨rfl, fun d _ => hall d⟩
    refine ⟨hfind, ?_⟩
    subst hbase
    have hnone := rampTarget_eq_none (t := map.get x y) hall
    simp only [tile_corner_heights, hnone]
    split <;> rfl

/-- Witness for the C2 theorem: the explicit South direction of `southRampMap` wins,
and the auto-scan of `autoRampMap` picks East with height 0. -/
theorem ramp_target_edge_selection_witness :
    rampTarget southRampMap 0 0 (2/5) (southRampMap.get 0 0) =
      some (RampDirection.South, 0) ∧
    ramp_neighbor_height autoRampMap 0 0 RampDirection.East (2/5) = some 0 :=
  ⟨(ramp_target_edge_selection southRampMap 0 0 (2/5)
      (by norm_num [southRampMap, TileMap.get, TileMap.idx, TILE_HEIGHT, TILE_SIZE,
        ELEVATION_FRACTION])).1
      RampDirection.South 0
      (by simp [southRampMap, TileMap.get, TileMap.idx])
      (by norm_num [ramp_neighbor_height, RampDirection.offset, southRampMap,
        TileMap.get, TileMap.idx, TILE_HEIGHT, TILE_SIZE, ELEVATION_FRACTION]),
   ((ramp_target_edge_selection autoRampMap 0 0 (2/5)
      (by norm_num [autoRampMap, TileMap.get, TileMap.idx, TILE_HEIGHT, TILE_SIZE,
        ELEVATION_FRACTION])).2.2.2.1
      RampDirection.East 0
      (by norm_num [find_ramp_target, RampDirection.ALL, ramp_scan_step,
        ramp_neighbor_height, RampDirection.offset, autoRampMap, TileMap.get,
        TileMap.idx, TILE_HEIGHT, TILE_SIZE, ELEVATION_FRACTION])).1⟩

/-- Witness for the C3 theorem at a concrete auto-resolved East ramp. -/
theorem ramp_lowers_exactly_target_edge_witness :
    tile_corner_heights autoRampMap 0 0 =
      { nw := 2/5, ne := 0, sw := 2/5, se := 0 } ∧ (0 : ℚ) < 2/5 :=
  ⟨(ramp_lowers_exactly_target_edge autoRampMap 0 0 (2/5) RampDirection.East 0
      (by simp [autoRampMap, TileMap.get, TileMap.idx])
      (by norm_num [autoRampMap, TileMap.get, TileMap.idx, TILE_HEIGHT, TILE_SIZE,
        ELEVATION_FRACTION])
      (by norm_num [rampTarget, find_ramp_target, RampDirection.ALL, ramp_scan_step,
        ramp_neighbor_height, RampDirection.offset, autoRampMap, TileMap.get,
        TileMap.idx, TILE_HEIGHT, TILE_SIZE, ELEVATION_FRACTION])).1,
   (ramp_lowers_exactly_target_edge autoRampMap 0 0 (2/5) RampDirection.East 0
      (by simp [autoRampMap, TileMap.get, TileMap.idx])
      (by norm_num [autoRampMap, TileMap.get, TileMap.idx, TILE_HEIGHT, TILE_SIZE,
        ELEVATION_FRACTION])
      (by norm_num [rampTarget, find_ramp_target, RampDirection.ALL, ramp_scan_step,
        ramp_neighbor_height, RampDirection.offset, autoRampMap, TileMap.get,
        TileMap.idx, TILE_HEIGHT, TILE_SIZE, ELEVATION_FRACTION])).2⟩

/-! Lemmas about the mesh builder. -/

theorem corner_cache_idx (map : TileMap) (x y : Nat) (hx : x < map.width) :
    corner_cache map (map.idx x y) = tile_corner_heights map x y := by
  have hw : 0 < map.width := lt_of_le_of_lt (Nat.zero_le x) hx
  unfold corner_cache TileMap.idx
  have h1 : (y * map.width + x) % map.width = x := by
    rw [Nat.mul_comm y map.width, Nat.mul_add_mod]
    exact Nat.mod_eq_of_lt hx
  have h2 : (y * map.width + x) / map.width = y := by
    rw [Nat.mul_comm y map.width, Nat.mul_add_div hw, Nat.div_eq_of_lt hx, Nat.add_zero]
  rw [h1, h2]

theorem push_triangle_uvs (buf : MeshBuffers) (a b c : Vec3) (ta tb tc : ℚ × ℚ) :
    (push_triangle buf a b c ta tb tc).uvs = buf.uvs ++ [ta, tb, tc] := rfl

theorem push_quad_uvs (buf : MeshBuffers) (v0 v1 v2 v3 : Vec3) (t0 t1 t2 t3 : ℚ × ℚ)
    (ti : Option (ℚ × ℚ)) :
    (push_quad buf v0 v1 v2 v3 t0 t1 t2 t3 ti).uvs =
      buf.uvs ++ [t0, t1, t2, t0, t2, t3] := by
  unfold push_quad
  dsimp only
  split <;> simp [push_triangle]

theorem push_quad_tile_layers (buf : MeshBuffers) (v0 v1 v2 v3 : Vec3)
    (t0 t1 t2 t3 : ℚ × ℚ) (ti : Option (ℚ × ℚ)) :
    (push_quad buf v0 v1 v2 v3 t0 t1 t2 t3 ti).tile_layers =
      match buf.tile_layers with
      | some ls => some (ls ++ List.replicate 6 (ti.getD (0, 0)))
      | none => none := by
  unfold push_quad
  dsimp only
  rw [show (push_triangle (push_triangle buf v0 v1 v2 t0 t1 t2) v0 v2 v3 t0 t2 t3).tile_layers
      = buf.tile_layers from rfl]
  rcases hbl : buf.tile_layers with _ | ls
  · exact hbl
  · rfl

theorem add_side_face_skip (buf : MeshBuffers) (top_a top_b bottom_a bottom_b : Vec3)
    (dir : RampDirection) (tl bl : Option ℚ) (seam : ℚ)
    (h1 : |top_a.y - bottom_a.y| < EPS) (h2 : |top_b.y - bottom_b.y| < EPS) :
    add_side_face buf top_a top_b bottom_a bottom_b dir tl bl seam = buf := by
  unfold add_side_face
  rw [if_pos ⟨h1, h2⟩]

theorem add_side_face_uvs (buf : MeshBuffers) (a : SideArgs) (dir : RampDirection)
    (tl : Option ℚ) :
    (add_side_face buf a.top_a a.top_b a.bottom_a a.bottom_b dir tl
        a.bottom_layer a.seam_height).uvs =
      buf.uvs ++ side_uv_block a tl := by
  unfold add_side_face
  split
  · rename_i hskip
    unfold side_uv_block
    rw [if_pos (show side_skip a from hskip)]
    simp
  · rename_i hskip
    unfold side_uv_block
    rw [if_neg (show ¬side_skip a from hskip)]
    dsimp only
    rw [push_quad_uvs]
    rfl

theorem add_side_face_tile_layers (buf : MeshBuffers) (a : SideArgs)
    (dir : RampDirection) (tl : Option ℚ) :
    (add_side_face buf a.top_a a.top_b a.bottom_a a.bottom_b dir tl
        a.bottom_layer a.seam_height).tile_layers =
      match buf.tile_layers with
      | some ls => some (ls ++ side_layer_block a tl)
      | none => none := by
  unfold add_side_face
  split
  · rename_i hskip
    unfold side_layer_block
    rw [if_pos (show side_skip a from hskip)]
    rcases hbl : buf.tile_layers with _ | ls
    · rfl
    · simp
  · rename_i hskip
    unfold side_layer_block
    rw [if_neg (show ¬side_skip a from hskip)]
    dsimp only
    rw [push_quad_tile_layers]

theorem push_quad_positions (buf : MeshBuffers) (v0 v1 v2 v3 : Vec3)
    (t0 t1 t2 t3 : ℚ × ℚ) (ti : Option (ℚ × ℚ)) :
    (push_quad buf v0 v1 v2 v3 t0 t1 t2 t3 ti).positions =
      buf.positions ++ [v0, v1, v2, v0, v2, v3] := by
  unfold push_quad
  dsimp only
  split <;> simp [push_triangle]

theorem add_side_face_positions (buf : MeshBuffers) (a : SideArgs)
    (dir : RampDirection) (tl : Option ℚ) :
    (add_side_face buf a.top_a a.top_b a.bottom_a a.bottom_b dir tl
        a.bottom_layer a.seam_height).positions =
      buf.positions ++ side_pos_block a := by
  unfold add_side_face
  split
  · rename_i hskip
    unfold side_pos_block
    rw [if_pos (show side_skip a from hskip)]
    simp
  · rename_i hskip
    unfold side_pos_block
    rw [if_neg (show ¬side_skip a from hskip)]
    dsimp only
    rw [push_quad_positions]

theorem append_tile_geometry_positions (map : TileMap) (cache : Nat → Corners)
    (x y : Nat) (buf : MeshBuffers) (tl : Option ℚ) :
    (append_tile_geometry map cache x y buf tl).positions =
      buf.positions
        ++ [{ x := (x : ℚ) * TILE_SIZE, y := (cache (map.idx x y)).nw,
              z := (y : ℚ) * TILE_SIZE },
            { x := (x : ℚ) * TILE_SIZE, y := (cache (map.idx x y)).sw,
              z := (y : ℚ) * TILE_SIZE + TILE_SIZE },
            { x := (x : ℚ) * TILE_SIZE + TILE_SIZE, y := (cache (map.idx x y)).se,
              z := (y : ℚ) * TILE_SIZE + TILE_SIZE },
            { x := (x : ℚ) * TILE_SIZE, y := (cache (map.idx x y)).nw,
              z := (y : ℚ) * TILE_SIZE },
            { x := (x : ℚ) * TILE_SIZE + TILE_SIZE, y := (cache (map.idx x y)).se,
              z := (y : ℚ) * TILE_SIZE + TILE_SIZE },
            { x := (x : ℚ) * TILE_SIZE + TILE_SIZE, y := (cache (map.idx x y)).ne,
              z := (y : ℚ) * TILE_SIZE }]
        ++ side_pos_block (side_args map cache x y RampDirection.North)
        ++ side_pos_block (side_args map cache x y RampDirection.South)
        ++ side_pos_block (side_args map cache x y RampDirection.West)
        ++ side_pos_block (side_args map cache x y RampDirection.East) := by
  unfold append_tile_geometry apply_side
  dsimp only
  rw [add_side_face_positions, add_side_face_positions, add_side_face_positions,
    add_side_face_positions, push_quad_positions]

theorem append_tile_geometry_uvs (map : TileMap) (cache : Nat → Corners) (x y : Nat)
    (buf : MeshBuffers) (tl : Option ℚ) :
    (append_tile_geometry map cache x y buf tl).uvs =
      buf.uvs ++ [(0, 0), (0, 0), (0, 0), (0, 0), (0, 0), (0, 0)]
        ++ side_uv_block (side_args map cache x y RampDirection.North) tl
        ++ side_uv_block (side_args map cache x y RampDirection.South) tl
        ++ side_uv_block (side_args map cache x y RampDirection.West) tl
        ++ side_uv_block (side_args map cache x y RampDirection.East) tl := by
  unfold append_tile_geometry apply_side
  dsimp only
  rw [add_side_face_uvs, add_side_face_uvs, add_side_face_uvs, add_side_face_uvs,
    push_quad_uvs]

theorem append_tile_geometry_tile_layers (map : TileMap) (cache : Nat → Corners)
    (x y : Nat) (buf : MeshBuffers) (tl : Option ℚ) (ls : List (ℚ × ℚ))
    (hls : buf.tile_layers = some ls) :
    (append_tile_geometry map cache x y buf tl).tile_layers =
      some (ls
        ++ List.replicate 6
            ((tl.map (fun layer => (layer, top_height_of (cache (map.idx x y))))).getD (0, 0))
        ++ side_layer_block (side_args map cache x y RampDirection.North) tl
        ++ side_layer_block (side_args map cache x y RampDirection.South) tl
        ++ side_layer_block (side_args map cache x y RampDirection.West) tl
        ++ side_layer_block (side_args map cache x y RampDirection.East) tl) := by
  unfold append_tile_geometry apply_side
  dsimp only
  rw [add_side_face_tile_layers, add_side_face_tile_layers, add_side_face_tile_layers,
    add_side_face_tile_layers, push_quad_tile_layers, hls]
  dsimp only
  simp [top_height_of, List.append_assoc]

/-! Theorems for the mesh-builder claims. -/

/-- C1: for every tile and each of its four edges, the skirt quad emitted by the mesh
builder has its bottom rail built, at each of the two shared corners, from the minimum
of this tile's resolved corner height and the neighbor's corresponding resolved corner
height (0 at map boundaries), so the skirt bottom never lies above either tile's
surface at those corners. -/
theorem skirt_bottom_rail_min (map : TileMap) (x y : Nat) (hx : x < map.width) :
    ((side_args map (corner_cache map) x y RampDirection.North).top_a.y =
        (tile_corner_heights map x y).nw ∧
     (side_args map (corner_cache map) x y RampDirection.North).top_b.y =
        (tile_corner_heights map x y).ne ∧
     (side_args map (corner_cache map) x y RampDirection.North).bottom_a.y =
        min (if 0 < y then (tile_corner_heights map x (y - 1)).sw else 0)
          (tile_corner_heights map x y).nw ∧
     (side_args map (corner_cache map) x y RampDirection.North).bottom_b.y =
        min (if 0 < y then (tile_corner_heights map x (y - 1)).se else 0)
          (tile_corner_heights map x y).ne ∧
     (side_args map (corner_cache map) x y RampDirection.North).bottom_a.y ≤
        (tile_corner_heights map x y).nw ∧
     (side_args map (corner_cache map) x y RampDirection.North).bottom_a.y ≤
        (if 0 < y then (tile_corner_heights map x (y - 1)).sw else 0) ∧
     (side_args map (corner_cache map) x y RampDirection.North).bottom_b.y ≤
        (tile_corner_heights map x y).ne ∧
     (side_args map (corner_cache map) x y RampDirection.North).bottom_b.y ≤
        (if 0 < y then (tile_corner_heights map x (y - 1)).se else 0)) ∧
    ((side_args map (corner_cache map) x y RampDirection.South).top_a.y =
        (tile_corner_heights map x y).se ∧
     (side_args map (corner_cache map) x y RampDirection.South).top_b.y =
        (tile_corner_heights map x y).sw ∧
     (side_args map (corner_cache map) x y RampDirection.South).bottom_a.y =
        min (if y + 1 < map.height then (tile_corner_heights map x (y + 1)).ne else 0)
          (tile_corner_heights map x y).se ∧
     (side_args map (corner_cache map) x y RampDirection.South).bottom_b.y =
        min (if y + 1 < map.height then (tile_corner_heights map x (y + 1)).nw else 0)
          (tile_corner_heights map x y).sw ∧
     (side_args map (corner_cache map) x y RampDirection.South).bottom_a.y ≤
        (tile_corner_heights map x y).se ∧
     (side_args map (corner_cache map) x y RampDirection.South).bottom_a.y ≤
        (if y + 1 < map.height then (tile_corner_heights map x (y + 1)).ne else 0) ∧
     (side_args map (corner_cache map) x y RampDirection.South).bottom_b.y ≤
        (tile_corner_heights map x y).sw ∧
     (side_args map (corner_cache map) x y RampDirection.South).bottom_b.y ≤
        (if y + 1 < map.height then (tile_corner_heights map x (y + 1)).nw else 0)) ∧
    ((side_args map (corner_cache map) x y RampDirection.West).top_a.y =
        (tile_corner_heights map x y).sw ∧
     (side_args map (corner_cache map) x y RampDirection.West).top_b.y =
        (tile_corner_heights map x y).nw ∧
     (side_args map (corner_cache map) x y RampDirection.West).bottom_a.y =
        min (if 0 < x then (tile_corner_heights map (x - 1) y).se else 0)
          (tile_corner_heights map x y).sw ∧
     (side_args map (corner_cache map) x y RampDirection.West).bottom_b.y =
        min (if 0 < x then (tile_corner_heights map (x - 1) y).ne else 0)
          (tile_corner_heights map x y).nw ∧
     (side_args map (corner_cache map) x y RampDirection.West).bottom_a.y ≤
        (tile_corner_heights map x y).sw ∧
     (side_args map (corner_cache map) x y RampDirection.West).bottom_a.y ≤
        (if 0 < x then (tile_corner_heights map (x - 1) y).se else 0) ∧
     (side_args map (corner_cache map) x y RampDirection.West).bottom_b.y ≤
        (tile_corner_heights map x y).nw ∧
     (side_args map (corner_cache map) x y RampDirection.West).bottom_b.y ≤
        (if 0 < x then (tile_corner_heights map (x - 1) y).ne else 0)) ∧
    ((side_args map (corner_cache map) x y RampDirection.East).top_a.y =
        (tile_corner_heights map x y).ne ∧
     (side_args map (corner_cache map) x y RampDirection.East).top_b.y =
        (tile_corner_heights map x y).se ∧
     (side_args map (corner_cache map) x y RampDirection.East).bottom_a.y =
        min (if x + 1 < map.width then (tile_corner_heights map (x + 1) y).nw else 0)
          (tile_corner_heights map x y).ne ∧
     (side_args map (corner_cache map) x y RampDirection.East).bottom_b.y =
        min (if x + 1 < map.width then (tile_corner_heights map (x + 1) y).sw else 0)
          (tile_corner_heights map x y).se ∧
     (side_args map (corner_cache map) x y RampDirection.East).bottom_a.y ≤
        (tile_corner_heights map x y).ne ∧
     (side_args map (corner_cache map) x y RampDirection.East).bottom_a.y ≤
        (if x + 1 < map.width then (tile_corner_heights map (x + 1) y).nw else 0) ∧
     (side_args map (corner_cache map) x y RampDirection.East).bottom_b.y ≤
        (tile_corner_heights map x y).se ∧
     (side_args map (corner_cache map) x y RampDirection.East).bottom_b.y ≤
        (if x + 1 < map.width then (tile_corner_heights map (x + 1) y).sw else 0)) := by
  have hx1 : x - 1 < map.width := lt_of_le_of_lt (Nat.sub_le x 1) hx
  refine ⟨?_, ?_, ?_, ?_⟩
  · by_cases hy : 0 < y <;>
      simp [side_args, corner_cache_idx, hx, hy, min_le_left, min_le_right]
  · by_cases hy2 : y + 1 < map.height <;>
      simp [side_args, corner_cache_idx, hx, hy2, min_le_left, min_le_right]
  · by_cases hx3 : 0 < x <;>
      simp [side_args, corner_cache_idx, hx, hx1, hx3, min_le_left, min_le_right]
  · by_cases hx4 : x + 1 < map.width <;>
      simp [side_args, corner_cache_idx, hx, hx4, min_le_left, min_le_right]

/-- Witness for the C1 theorem at a concrete tile. -/
theorem skirt_bottom_rail_min_witness :
    (side_args stepMap (corner_cache stepMap) 0 0 RampDirection.South).bottom_a.y =
      min (if 0 + 1 < stepMap.height then (tile_corner_heights stepMap 0 (0 + 1)).ne else 0)
        (tile_corner_heights stepMap 0 0).se :=
  (skirt_bottom_rail_min stepMap 0 0 (by norm_num [stepMap])).2.1.2.2.1

/-- C4: if both endpoints of a candidate skirt differ from the bottom rail by less
than `EPS = 1e-4`, `add_side_face` emits nothing and the buffer is unchanged; in
particular, for adjacent tiles whose resolved corner heights agree along their shared
edge (vertically or horizontally), both tiles' skirt calls for that edge leave the
buffer untouched, so vertex and index counts are unaffected by that edge. -/
theorem degenerate_skirt_suppressed :
    (∀ (buf : MeshBuffers) (top_a top_b bottom_a bottom_b : Vec3) (dir : RampDirection)
        (tl bl : Option ℚ) (seam : ℚ),
        |top_a.y - bottom_a.y| < EPS → |top_b.y - bottom_b.y| < EPS →
        add_side_face buf top_a top_b bottom_a bottom_b dir tl bl seam = buf) ∧
    (∀ (map : TileMap) (x y : Nat) (buf1 buf2 : MeshBuffers) (tl1 tl2 : Option ℚ),
        x < map.width → y + 1 < map.height →
        (tile_corner_heights map x y).sw = (tile_corner_heights map x (y + 1)).nw →
        (tile_corner_heights map x y).se = (tile_corner_heights map x (y + 1)).ne →
        apply_side map (corner_cache map) x y buf1 tl1 RampDirection.South = buf1 ∧
        apply_side map (corner_cache map) x (y + 1) buf2 tl2 RampDirection.North = buf2) ∧
    (∀ (map : TileMap) (x y : Nat) (buf1 buf2 : MeshBuffers) (tl1 tl2 : Option ℚ),
        x + 1 < map.width →
        (tile_corner_heights map x y).ne = (tile_corner_heights map (x + 1) y).nw →
        (tile_corner_heights map x y).se = (tile_corner_heights map (x + 1) y).sw →
        apply_side map (corner_cache map) x y buf1 tl1 RampDirection.East = buf1 ∧
        apply_side map (corner_cache map) (x + 1) y buf2 tl2 RampDirection.West = buf2) := by
  refine ⟨?_, ?_, ?_⟩
  · intro buf top_a top_b bottom_a bottom_b dir tl bl seam h1 h2
    exact add_side_face_skip buf top_a top_b bottom_a bottom_b dir tl bl seam h1 h2
  · intro map x y buf1 buf2 tl1 tl2 hx hy h1 h2
    constructor
    · unfold apply_side
      dsimp only
      apply add_side_face_skip
      all_goals
        norm_num [side_args, corner_cache_idx, hx, hy, h1, h2, min_self, sub_self,
          abs_zero, EPS]
    · unfold apply_side
      dsimp only
      apply add_side_face_skip
      all_goals
        norm_num [side_args, corner_cache_idx, hx, Nat.add_sub_cancel, h1, h2, min_self,
          sub_self, abs_zero, EPS]
  · intro map x y buf1 buf2 tl1 tl2 hx h1 h2
    have hx0 : x < map.width := lt_trans (Nat.lt_succ_self x) hx
    constructor
    · unfold apply_side
      dsimp only
      apply add_side_face_skip
      all_goals
        norm_num [side_args, corner_cache_idx, hx, hx0, h1, h2, min_self, sub_self,
          abs_zero, EPS]
    · unfold apply_side
      dsimp only
      apply add_side_face_skip
      all_goals
        norm_num [side_args, corner_cache_idx, hx, hx0, Nat.add_sub_cancel, h1, h2,
          min_self, sub_self, abs_zero, EPS]

/-- Witness for the C4 theorem at a concrete degenerate skirt. -/
theorem degenerate_skirt_suppressed_witness :
    add_side_face MeshBuffers.with_tile_types (Vec3.mk 0 0 0) (Vec3.mk 1 0 0)
      (Vec3.mk 0 0 0) (Vec3.mk 1 0 0) RampDirection.North (some 0) none 0 =
      MeshBuffers.with_tile_types :=
  degenerate_skirt_suppressed.1 MeshBuffers.with_tile_types (Vec3.mk 0 0 0)
    (Vec3.mk 1 0 0) (Vec3.mk 0 0 0) (Vec3.mk 1 0 0) RampDirection.North (some 0) none 0
    (by norm_num [EPS]) (by norm_num [EPS])

/-- C8 counterexample: on an empty 0x0 grid `build_combined_mesh` returns a mesh whose
position, normal and uv0 attributes ARE inserted (as empty lists), refuting the
claim's "no attributes": the position attribute is `some []`, not `none`. -/
theorem empty_grid_mesh_cex :
    build_combined_mesh (TileMap.new 0 0) =
      { position := some [], normal := some [], uv0 := some [], uv1 := none,
        indices := none } ∧
    (build_combined_mesh (TileMap.new 0 0)).position ≠ none := by
  have h : build_combined_mesh (TileMap.new 0 0) =
      { position := some [], normal := some [], uv0 := some [], uv1 := none,
        indices := none } := by
    norm_num [build_combined_mesh, populate_combined, MeshBuffers.with_tile_types,
      MeshBuffers.empty, MeshBuffers.into_mesh, TileMap.new]
  refine ⟨h, ?_⟩
  rw [h]
  exact fun hc => Option.noConfusion hc

/-- C8 amended: for every grid with zero width or zero height, `build_combined_mesh`
yields a mesh with no vertices and no indices — position, normal and uv0 are inserted
but empty, uv1 and indices are omitted — and `build_map_meshes` yields no meshes at
all. -/
theorem empty_grid_mesh (map : TileMap) (h : map.width = 0 ∨ map.height = 0) :
    build_combined_mesh map =
      { position := some [], normal := some [], uv0 := some [], uv1 := none,
        indices := none } ∧
    build_map_meshes map = [] := by
  constructor
  · unfold build_combined_mesh populate_combined
    rw [if_pos h]
    rfl
  · unfold build_map_meshes populate_per_type
    rw [if_pos h]
    rfl

/-- Witness for the amended C8 theorem on a 0x3 grid. -/
theorem empty_grid_mesh_witness :
    build_combined_mesh (TileMap.new 0 3) =
      { position := some [], normal := some [], uv0 := some [], uv1 := none,
        indices := none } ∧
    build_map_meshes (TileMap.new 0 3) = [] :=
  empty_grid_mesh (TileMap.new 0 3) (Or.inl rfl)

theorem floor_ne_ramp : TileKind.Floor ≠ TileKind.Ramp :=
  fun h => TileKind.noConfusion h

set_option maxHeartbeats 1000000 in
/-- C9 counterexample: in the combined mesh of the flat 2x1 grid, the top-face vertex
at index 2 sits at world position (1, 0, 1) but carries uv0 = (0, 0); no positive
world-units-per-repeat scale s makes (0, 0) equal the planar projection
(x/s, z/s) = (1/s, 1/s) of that position. -/
theorem uv0_not_planar_projection_cex :
    ((build_combined_mesh flatRowMap).position.getD []).getD 2 (Vec3.mk 9 9 9) =
      Vec3.mk 1 0 1 ∧
    ((build_combined_mesh flatRowMap).uv0.getD []).getD 2 (9, 9) = (0, 0) ∧
    ¬∃ s : ℚ, 0 < s ∧ ((1 : ℚ)/s, (1 : ℚ)/s) = ((0 : ℚ), (0 : ℚ)) := by
  have hpop : populate_combined flatRowMap MeshBuffers.with_tile_types =
      append_tile_geometry flatRowMap (corner_cache flatRowMap) 1 0
        (append_tile_geometry flatRowMap (corner_cache flatRowMap) 0 0
          MeshBuffers.with_tile_types
          (some ((flatRowMap.get 0 0).tile_type.as_index : ℚ)))
        (some ((flatRowMap.get 1 0).tile_type.as_index : ℚ)) := rfl
  refine ⟨?_, ?_, ?_⟩
  · have hmesh : (build_combined_mesh flatRowMap).position =
        some ((populate_combined flatRowMap MeshBuffers.with_tile_types).positions) :=
      rfl
    rw [hmesh, hpop, append_tile_geometry_positions, append_tile_geometry_positions]
    norm_num [MeshBuffers.with_tile_types, MeshBuffers.empty, corner_cache,
      tile_corner_heights, rampTarget, find_ramp_target, ramp_scan_step,
      ramp_neighbor_height, RampDirection.ALL, RampDirection.offset, applyRamp,
      TileMap.get, TileMap.idx, TileMap.new, flatRowMap, defaultTile, TILE_HEIGHT,
      TILE_SIZE, ELEVATION_FRACTION, floor_ne_ramp, min_def, max_def]
  · have hmesh : (build_combined_mesh flatRowMap).uv0 =
        some ((populate_combined flatRowMap MeshBuffers.with_tile_types).uvs) := rfl
    rw [hmesh, hpop, append_tile_geometry_uvs, append_tile_geometry_uvs]
    simp [MeshBuffers.with_tile_types, MeshBuffers.empty]
  · rintro ⟨s, hs, heq⟩
    have h1 : (1 : ℚ)/s = 0 := congrArg Prod.fst heq
    exact one_div_ne_zero (ne_of_gt hs) h1

/-- C9 amended: the mesh's uv0 is not a world-space planar projection: every top-face
vertex carries the constant uv0 = (0, 0), and every skirt vertex carries the constant
uv0 = (bottom_value, bottom_height) of its quad, where bottom_value is the bottom
neighbor's layer (the own layer or 0 when absent) and bottom_height the lower end of
the bottom rail; world-space projection is left to the terrain shader. -/
theorem mesh_uv0_constant_blocks (map : TileMap) (cache : Nat → Corners) (x y : Nat)
    (buf : MeshBuffers) (tl : Option ℚ) :
    (append_tile_geometry map cache x y buf tl).uvs =
      buf.uvs ++ [(0, 0), (0, 0), (0, 0), (0, 0), (0, 0), (0, 0)]
        ++ side_uv_block (side_args map cache x y RampDirection.North) tl
        ++ side_uv_block (side_args map cache x y RampDirection.South) tl
        ++ side_uv_block (side_args map cache x y RampDirection.West) tl
        ++ side_uv_block (side_args map cache x y RampDirection.East) tl :=
  append_tile_geometry_uvs map cache x y buf tl

theorem into_mesh_uv1_getD (b : MeshBuffers) :
    b.into_mesh.uv1.getD [] = b.tile_layers.getD [] := by
  unfold MeshBuffers.into_mesh
  dsimp only
  rcases hbl : b.tile_layers with _ | ls
  · rfl
  · dsimp only
    by_cases he : ls.isEmpty
    · rw [if_pos he]
      rw [List.isEmpty_iff] at he
      rw [he]
      rfl
    · rw [if_neg he]

set_option maxHeartbeats 1000000 in
/-- C7 counterexample: in the combined mesh of `stepMap` (Grass at elevation 1 above
Dirt at elevation 0), vertex 12 — the first vertex of the south skirt between the two
tiles — carries layer attribute (uv1) first component 0, the OWN (Grass) index, not
the lower Dirt neighbor's index 1; the neighbor's index 1 appears in uv0 instead. -/
theorem skirt_layer_is_own_tile_cex :
    ((build_combined_mesh stepMap).uv1.getD []).getD 12 (9, 9) = ((0 : ℚ), 2/5) ∧
    (apply_side stepMap (corner_cache stepMap) 0 0 MeshBuffers.with_tile_types (some 0)
        RampDirection.South).tile_layers =
      some [((0 : ℚ), (2 : ℚ)/5), (0, 2/5), (0, 2/5), (0, 2/5), (0, 2/5), (0, 2/5)] ∧
    (apply_side stepMap (corner_cache stepMap) 0 0 MeshBuffers.with_tile_types (some 0)
        RampDirection.South).uvs =
      [((1 : ℚ), (0 : ℚ)), (1, 0), (1, 0), (1, 0), (1, 0), (1, 0)] ∧
    (stepMap.get 0 0).tile_type.as_index = 0 ∧
    (stepMap.get 0 1).tile_type.as_index = 1 ∧
    ((0 : ℚ) ≠ 1) := by
  refine ⟨?_, ?_, ?_, ?_, ?_, by norm_num⟩
  · have hpop : populate_combined stepMap MeshBuffers.with_tile_types =
        append_tile_geometry stepMap (corner_cache stepMap) 0 1
          (append_tile_geometry stepMap (corner_cache stepMap) 0 0
            MeshBuffers.with_tile_types
            (some ((stepMap.get 0 0).tile_type.as_index : ℚ)))
          (some ((stepMap.get 0 1).tile_type.as_index : ℚ)) := rfl
    have h0 := append_tile_geometry_tile_layers stepMap (corner_cache stepMap) 0 0
      MeshBuffers.with_tile_types (some ((stepMap.get 0 0).tile_type.as_index : ℚ))
      [] rfl
    have h1 := append_tile_geometry_tile_layers stepMap (corner_cache stepMap) 0 1
      (append_tile_geometry stepMap (corner_cache stepMap) 0 0
        MeshBuffers.with_tile_types
        (some ((stepMap.get 0 0).tile_type.as_index : ℚ)))
      (some ((stepMap.get 0 1).tile_type.as_index : ℚ)) _ h0
    have hstart : ((build_combined_mesh stepMap).uv1.getD []) =
        ((populate_combined stepMap MeshBuffers.with_tile_types).tile_layers.getD []) :=
      into_mesh_uv1_getD (populate_combined stepMap MeshBuffers.with_tile_types)
    rw [hstart, hpop, h1]
    have hp0 : ((some ((stepMap.get 0 0).tile_type.as_index : ℚ)).map
        (fun layer => (layer, top_height_of (corner_cache stepMap (stepMap.idx 0 0))))).getD
          (0, 0) = ((0 : ℚ), (2 : ℚ)/5) := by
      norm_num [top_height_of, corner_cache, tile_corner_heights, rampTarget,
        find_ramp_target, ramp_scan_step, ramp_neighbor_height, RampDirection.ALL,
        RampDirection.offset, applyRamp, TileMap.get, TileMap.idx, stepMap,
        defaultTile, TileType.as_index, TILE_HEIGHT, TILE_SIZE, ELEVATION_FRACTION,
        floor_ne_ramp, min_def, max_def]
    have hB0N : side_layer_block
        (side_args stepMap (corner_cache stepMap) 0 0 RampDirection.North)
        (some ((stepMap.get 0 0).tile_type.as_index : ℚ)) =
        List.replicate 6 ((0 : ℚ), (2 : ℚ)/5) := by
      norm_num [side_layer_block, side_skip, side_args, corner_cache,
        tile_corner_heights, rampTarget, find_ramp_target, ramp_scan_step,
        ramp_neighbor_height, RampDirection.ALL, RampDirection.offset, applyRamp,
        TileMap.get, TileMap.idx, stepMap, defaultTile, TileType.as_index,
        TILE_HEIGHT, TILE_SIZE, ELEVATION_FRACTION, EPS, abs_lt, floor_ne_ramp,
        min_def, max_def]
    have hB0S : side_layer_block
        (side_args stepMap (corner_cache stepMap) 0 0 RampDirection.South)
        (some ((stepMap.get 0 0).tile_type.as_index : ℚ)) =
        List.replicate 6 ((0 : ℚ), (2 : ℚ)/5) := by
      norm_num [side_layer_block, side_skip, side_args, corner_cache,
        tile_corner_heights, rampTarget, find_ramp_target, ramp_scan_step,
        ramp_neighbor_height, RampDirection.ALL, RampDirection.offset, applyRamp,
        TileMap.get, TileMap.idx, stepMap, defaultTile, TileType.as_index,
        TILE_HEIGHT, TILE_SIZE, ELEVATION_FRACTION, EPS, abs_lt, floor_ne_ramp,
        min_def, max_def]
    rw [hp0, hB0N, hB0S]
    simp [show List.replicate 6 ((0 : ℚ), (2 : ℚ)/5) =
      [((0 : ℚ), (2 : ℚ)/5), (0, 2/5), (0, 2/5), (0, 2/5), (0, 2/5), (0, 2/5)] from rfl]
  · unfold apply_side
    dsimp only
    rw [add_side_face_tile_layers]
    norm_num [side_layer_block, side_skip, side_args, corner_cache,
      MeshBuffers.with_tile_types, MeshBuffers.empty, tile_corner_heights, rampTarget,
      find_ramp_target, ramp_scan_step, ramp_neighbor_height, RampDirection.ALL,
      RampDirection.offset, applyRamp, TileMap.get, TileMap.idx, stepMap, defaultTile,
      TileType.as_index, TILE_HEIGHT, TILE_SIZE, ELEVATION_FRACTION, EPS, abs_lt,
      floor_ne_ramp, min_def, max_def, List.replicate]
  · unfold apply_side
    dsimp only
    rw [add_side_face_uvs]
    norm_num [side_uv_block, side_skip, side_args, corner_cache,
      MeshBuffers.with_tile_types, MeshBuffers.empty, tile_corner_heights, rampTarget,
      find_ramp_target, ramp_scan_step, ramp_neighbor_height, RampDirection.ALL,
      RampDirection.offset, applyRamp, TileMap.get, TileMap.idx, stepMap, defaultTile,
      TileType.as_index, TILE_HEIGHT, TILE_SIZE, ELEVATION_FRACTION, EPS, abs_lt,
      floor_ne_ramp, min_def, max_def, List.replicate]
  · norm_num [stepMap, TileMap.get, TileMap.idx, TileType.as_index]
  · norm_num [stepMap, TileMap.get, TileMap.idx, TileType.as_index]

/-- C7 amended: every vertex emitted for a tile — top face and skirt alike — carries
the OWN tile's layer index in the layer attribute (uv1): the top-face block is
(layer, top_height) and each skirt block (layer, seam_height). The bottom neighbor's
tile-type index is carried instead in the first uv0 component of skirt vertices. -/
theorem combined_mesh_layer_attribute (map : TileMap) (cache : Nat → Corners)
    (x y : Nat) (buf : MeshBuffers) (L : ℚ) (ls : List (ℚ × ℚ))
    (hls : buf.tile_layers = some ls) :
    (append_tile_geometry map cache x y buf (some L)).tile_layers =
      some (ls
        ++ List.replicate 6 (L, top_height_of (cache (map.idx x y)))
        ++ side_layer_block (side_args map cache x y RampDirection.North) (some L)
        ++ side_layer_block (side_args map cache x y RampDirection.South) (some L)
        ++ side_layer_block (side_args map cache x y RampDirection.West) (some L)
        ++ side_layer_block (side_args map cache x y RampDirection.East) (some L)) ∧
    (∀ a : SideArgs, side_layer_block a (some L) =
      if side_skip a then [] else List.replicate 6 (L, a.seam_height)) ∧
    (∀ a : SideArgs, ∀ nb : ℚ, a.bottom_layer = some nb →
      side_uv_block a (some L) =
        if side_skip a then []
        else List.replicate 6 (nb, min a.bottom_a.y a.bottom_b.y)) := by
  refine ⟨?_, ?_, ?_⟩
  · rw [append_tile_geometry_tile_layers map cache x y buf (some L) ls hls]
    rfl
  · intro a
    unfold side_layer_block
    rfl
  · intro a nb hnb
    unfold side_uv_block
    rw [hnb]
    rfl

/-- Witness for the amended C7 theorem at a concrete skirt block. -/
theorem combined_mesh_layer_attribute_witness :
    side_layer_block
        { top_a := Vec3.mk 0 (2/5) 0, top_b := Vec3.mk 1 (2/5) 0,
          bottom_a := Vec3.mk 0 0 0, bottom_b := Vec3.mk 1 0 0,
          bottom_layer := some 1, seam_height := 2/5 } (some 0) =
      if side_skip
          { top_a := Vec3.mk 0 (2/5) 0, top_b := Vec3.mk 1 (2/5) 0,
            bottom_a := Vec3.mk 0 0 0, bottom_b := Vec3.mk 1 0 0,
            bottom_layer := some 1, seam_height := 2/5 }
        then [] else List.replicate 6 ((0 : ℚ), 2/5) :=
  (combined_mesh_layer_attribute stepMap (corner_cache stepMap) 0 0
      MeshBuffers.with_tile_types 0 [] rfl).2.1
    { top_a := Vec3.mk 0 (2/5) 0, top_b := Vec3.mk 1 (2/5) 0,
      bottom_a := Vec3.mk 0 0 0, bottom_b := Vec3.mk 1 0 0,
      bottom_layer := some 1, seam_height := 2/5 }

/-! Lemmas about the splatmap encoder. -/

theorem splat_pixel_length (t : Tile) : (splat_pixel t).length = 4 := by
  unfold splat_pixel CHANNELS
  dsimp only
  split <;> simp

theorem write_block_length (data : List Nat) (idx : Nat) (pixel : List Nat)
    (h : idx + pixel.length ≤ data.length) :
    (write_block data idx pixel).length = data.length := by
  unfold write_block
  simp only [List.length_append, List.length_take, List.length_drop]
  omega

theorem flat_length (pix : Nat → List Nat) (B : Nat) (hB : ∀ i, (pix i).length = B) :
    ∀ n, ((List.range n).flatMap pix).length = n * B := by
  intro n
  induction n with
  | zero => simp
  | succ m ih =>
    rw [List.range_succ, List.flatMap_append]
    simp only [List.length_append, ih, List.flatMap_cons, List.flatMap_nil,
      List.append_nil, hB m]
    ring

theorem flat_drop_decomp (pix : Nat → List Nat) (B : Nat)
    (hB : ∀ i, (pix i).length = B) :
    ∀ n k, k < n → ∃ t, ((List.range n).flatMap pix).drop (k * B) = pix k ++ t := by
  intro n
  induction n with
  | zero => intro k hk; exact absurd hk (Nat.not_lt_zero k)
  | succ m ih =>
    intro k hk
    rw [List.range_succ, List.flatMap_append]
    rcases Nat.lt_or_ge k m with hkm | hkm
    · obtain ⟨t, ht⟩ := ih k hkm
      have hle : k * B ≤ ((List.range m).flatMap pix).length := by
        rw [flat_length pix B hB m]
        exact Nat.mul_le_mul_right B (le_of_lt hkm)
      rw [List.drop_append_of_le_length hle, ht]
      exact ⟨t ++ [m].flatMap pix, by simp⟩
    · have hk2 : k = m := Nat.le_antisymm (Nat.lt_succ_iff.mp hk) hkm
      subst hk2
      have hlen : ((List.range k).flatMap pix).length = k * B := flat_length pix B hB k
      refine ⟨[], ?_⟩
      rw [← hlen, List.drop_left]
      simp

theorem fold_write_blocks (pix : Nat → List Nat) (start : Nat)
    (hB : ∀ i, (pix i).length = 4) :
    ∀ (n : Nat) (data : List Nat), (start + n) * 4 ≤ data.length →
      (List.range n).foldl (fun d i => write_block d ((start + i) * 4) (pix i)) data =
        data.take (start * 4) ++ (List.range n).flatMap pix
          ++ data.drop ((start + n) * 4) := by
  intro n
  induction n with
  | zero =>
    intro data hle
    simp [List.take_append_drop]
  | succ m ih =>
    intro data hle
    have hle2 : (start + m) * 4 ≤ data.length := by omega
    rw [List.range_succ, List.foldl_append]
    simp only [List.foldl_cons, List.foldl_nil]
    rw [ih data hle2]
    have hA : (data.take (start * 4)).length = start * 4 := by
      rw [List.length_take]
      omega
    have hF : ((List.range m).flatMap pix).length = m * 4 := flat_length pix 4 hB m
    unfold write_block
    rw [hB m]
    have hAF : ((data.take (start * 4)) ++ (List.range m).flatMap pix).length =
        (start + m) * 4 := by
      rw [List.length_append, hA, hF]
      ring
    have htake : ((data.take (start * 4) ++ (List.range m).flatMap pix)
          ++ data.drop ((start + m) * 4)).take ((start + m) * 4) =
        data.take (start * 4) ++ (List.range m).flatMap pix := by
      rw [← hAF]
      exact List.take_left ..
    have hdrop : ((data.take (start * 4) ++ (List.range m).flatMap pix)
          ++ data.drop ((start + m) * 4)).drop ((start + m) * 4 + 4) =
        data.drop ((start + (m + 1)) * 4) := by
      have h1 : (start + m) * 4 + 4 = ((data.take (start * 4) ++
          (List.range m).flatMap pix)).length + 4 := by rw [hAF]
      rw [h1, ← List.drop_drop, List.drop_left, List.drop_drop]
      congr 1
      ring
    rw [show data.take (start * 4) ++ (List.range m).flatMap pix
          ++ data.drop ((start + m) * 4) =
        (data.take (start * 4) ++ (List.range m).flatMap pix)
          ++ data.drop ((start + m) * 4) from by rw [List.append_assoc], htake, hdrop]
    rw [List.flatMap_append]
    simp [List.append_assoc]

theorem splat_loop_structure (map : TileMap) :
    ∀ (hh : Nat) (data : List Nat), hh * (map.width * 4) ≤ data.length →
      (List.range hh).foldl
        (fun d y =>
          (List.range map.width).foldl
            (fun d x => write_block d ((y * map.width + x) * 4) (splat_pixel (map.get x y)))
            d)
        data =
      (List.range hh).flatMap
        (fun y => (List.range map.width).flatMap (fun x => splat_pixel (map.get x y)))
        ++ data.drop (hh * (map.width * 4)) := by
  intro hh
  induction hh with
  | zero => intro data hle; simp
  | succ m ih =>
    intro data hle
    have hle2 : m * (map.width * 4) ≤ data.length := by
      refine le_trans ?_ hle
      exact Nat.mul_le_mul_right _ (Nat.le_succ m)
    rw [List.range_succ, List.foldl_append]
    simp only [List.foldl_cons, List.foldl_nil]
    rw [ih data hle2]
    have hrowlen : ∀ y0, ((List.range map.width).flatMap
        (fun x => splat_pixel (map.get x y0))).length = map.width * 4 :=
      fun y0 => flat_length _ 4 (fun i => splat_pixel_length (map.get i y0)) map.width
    have hFlen : ((List.range m).flatMap (fun y =>
        (List.range map.width).flatMap (fun x => splat_pixel (map.get x y)))).length =
        m * (map.width * 4) :=
      flat_length _ (map.width * 4) hrowlen m
    have hinner := fold_write_blocks (fun x => splat_pixel (map.get x m)) (m * map.width)
      (fun i => splat_pixel_length (map.get i m)) map.width
      ((List.range m).flatMap (fun y =>
        (List.range map.width).flatMap (fun x => splat_pixel (map.get x y)))
        ++ data.drop (m * (map.width * 4)))
    have harith1 : (m * map.width + map.width) * 4 = (m + 1) * (map.width * 4) := by ring
    have hdlen : ((List.range m).flatMap (fun y =>
        (List.range map.width).flatMap (fun x => splat_pixel (map.get x y)))
        ++ data.drop (m * (map.width * 4))).length = data.length := by
      rw [List.length_append, hFlen, List.length_drop]
      omega
    rw [show (fun (d : List Nat) (x : Nat) =>
          write_block d ((m * map.width + x) * 4) (splat_pixel (map.get x m))) =
        (fun (d : List Nat) (i : Nat) =>
          write_block d ((m * map.width + i) * 4) (splat_pixel (map.get i m))) from rfl]
    rw [hinner (by rw [hdlen]; omega)]
    have htake2 : ((List.range m).flatMap (fun y =>
          (List.range map.width).flatMap (fun x => splat_pixel (map.get x y)))
          ++ data.drop (m * (map.width * 4))).take (m * map.width * 4) =
        (List.range m).flatMap (fun y =>
          (List.range map.width).flatMap (fun x => splat_pixel (map.get x y))) := by
      rw [show m * map.width * 4 = m * (map.width * 4) from by ring, ← hFlen]
      exact List.take_left ..
    have hdrop2 : ((List.range m).flatMap (fun y =>
          (List.range map.width).flatMap (fun x => splat_pixel (map.get x y)))
          ++ data.drop (m * (map.width * 4))).drop ((m * map.width + map.width) * 4) =
        data.drop ((m + 1) * (map.width * 4)) := by
      rw [show (m * map.width + map.width) * 4 = m * (map.width * 4) + map.width * 4
          from by ring]
      rw [← List.drop_drop]
      rw [show m * (map.width * 4) = ((List.range m).flatMap (fun y =>
          (List.range map.width).flatMap (fun x => splat_pixel (map.get x y)))).length
          from hFlen.symm]
      rw [List.drop_left, List.drop_drop]
      congr 1
      rw [hFlen]
      ring
    rw [htake2, hdrop2, List.flatMap_append]
    simp [List.append_assoc]

theorem splat_loop_texel (map : TileMap) (data : List Nat)
    (hlen : data.length = map.height * (map.width * 4)) (x y : Nat)
    (hx : x < map.width) (hy : y < map.height) :
    ((splat_loop map map.width data).drop ((y * map.width + x) * 4)).take 4 =
      splat_pixel (map.get x y) := by
  unfold splat_loop CHANNELS
  rw [splat_loop_structure map map.height data (le_of_eq hlen.symm)]
  rw [← hlen, List.drop_length, List.append_nil]
  have hrowlen : ∀ y0, ((List.range map.width).flatMap
      (fun x => splat_pixel (map.get x y0))).length = map.width * 4 :=
    fun y0 => flat_length _ 4 (fun i => splat_pixel_length (map.get i y0)) map.width
  obtain ⟨t, ht⟩ := flat_drop_decomp
    (fun y0 => (List.range map.width).flatMap (fun x => splat_pixel (map.get x y0)))
    (map.width * 4) hrowlen map.height y hy
  obtain ⟨u, hu⟩ := flat_drop_decomp (fun x => splat_pixel (map.get x y)) 4
    (fun i => splat_pixel_length (map.get i y)) map.width x hx
  have hsplit : (y * map.width + x) * 4 = y * (map.width * 4) + x * 4 := by ring
  rw [hsplit, ← List.drop_drop, ht]
  have hx4 : x * 4 ≤ ((List.range map.width).flatMap
      (fun x => splat_pixel (map.get x y))).length := by
    rw [hrowlen y]
    omega
  rw [List.drop_append_of_le_length hx4, hu]
  rw [List.append_assoc]
  rw [show (4 : Nat) = (splat_pixel (map.get x y)).length from
    (splat_pixel_length (map.get x y)).symm]
  exact List.take_left ..

theorem splat_write_fit_texel (map : TileMap) (img : Image) (x y : Nat)
    (hx : x < map.width) (hy : y < map.height) :
    (((splat_write_fit map img).data.drop ((y * map.width + x) * 4)).take 4) =
      splat_pixel (map.get x y) := by
  unfold splat_write_fit extent_from_map
  have hw : max map.width 1 = map.width := Nat.max_eq_left (by omega)
  have hh : max map.height 1 = map.height := Nat.max_eq_left (by omega)
  rw [hw, hh]
  dsimp only
  have hne : ¬(map.width = 0 ∨ map.height = 0) := by omega
  rw [if_neg hne]
  dsimp only
  set data0 := if img.data.length ≠ map.width * map.height * CHANNELS then
      img.data.take (map.width * map.height * CHANNELS) ++
        List.replicate (map.width * map.height * CHANNELS - img.data.length) 0
    else img.data with hdata0
  have hlen0 : data0.length = map.height * (map.width * 4) := by
    rw [hdata0]
    unfold CHANNELS
    split
    · simp only [List.length_append, List.length_take, List.length_replicate]
      have hc : map.height * (map.width * 4) = map.width * map.height * 4 := by ring
      omega
    · rename_i hne2
      have he : img.data.length = map.width * map.height * 4 := by omega
      rw [he]
      ring
  exact splat_loop_texel map data0 hlen0 x y hx hy

/-! Theorem for the splatmap claim. -/

/-- C5: for every grid and in-range tile (x, y), the splatmap texel written by
`splatmap::create` and `splatmap::write` at (x, y) equals the one-hot pixel of the
tile: channel `as_index` holds 255, every other channel holds 0, and `as_index` is
always a valid channel, so exactly one of the four channels is non-zero. -/
theorem splatmap_texel_one_hot (map : TileMap) (x y : Nat) (hx : x < map.width)
    (hy : y < map.height) :
    (((splat_create map).data.drop ((y * map.width + x) * 4)).take 4 =
      splat_pixel (map.get x y)) ∧
    (∀ img : Image,
      ((splat_write map img).data.drop ((y * map.width + x) * 4)).take 4 =
        splat_pixel (map.get x y)) ∧
    (map.get x y).tile_type.as_index < 4 ∧
    (splat_pixel (map.get x y)).getD (map.get x y).tile_type.as_index 0 = 255 ∧
    (∀ c, c < 4 → c ≠ (map.get x y).tile_type.as_index →
      (splat_pixel (map.get x y)).getD c 0 = 0) := by
  have hcreate : ((splat_create map).data.drop ((y * map.width + x) * 4)).take 4 =
      splat_pixel (map.get x y) := by
    unfold splat_create
    exact splat_write_fit_texel map _ x y hx hy
  refine ⟨hcreate, ?_, ?_, ?_, ?_⟩
  · intro img
    unfold splat_write
    split
    · exact hcreate
    · exact splat_write_fit_texel map img x y hx hy
  · rcases htt : (map.get x y).tile_type <;> simp [TileType.as_index, htt]
  · rcases htt : (map.get x y).tile_type <;>
      simp [splat_pixel, TileType.as_index, htt, CHANNELS]
  · intro c hc hne
    rcases htt : (map.get x y).tile_type <;>
      interval_cases c <;>
        simp_all [splat_pixel, TileType.as_index, CHANNELS]

/-- Witness for the C5 theorem on a concrete 1x1 Grass map. -/
theorem splatmap_texel_one_hot_witness :
    ((splat_create (TileMap.new 1 1)).data.drop ((0 * (TileMap.new 1 1).width + 0) * 4)).take 4 =
      splat_pixel ((TileMap.new 1 1).get 0 0) :=
  (splatmap_texel_one_hot (TileMap.new 1 1) 0 0 (by norm_num [TileMap.new])
    (by norm_num [TileMap.new])).1

end Tilemap
